import Mathlib

/-!
# yaffs_tagscompat.c : tags, tag ECC and the spare area

A shallow embedding of `yaffs_tagscompat.c`.  The 8 bytes of a `yaffs_Tags`
record (the union `yaffs_tags_union_t`) are one little-endian 64-bit word:
byte `i` of `asBytes` is bits `8*i .. 8*i+7` of the word, and every bitfield of
the record is a run of consecutive bits of it.  The bitfield declaration itself
lives in `yaffs_guts.h`; its offsets and widths are a parameter (`TagsLayout`).
Values of type `int` are integers; where the code multiplies, adds or divides
them the result is brought back into the range of `int` (`wrap32`).
-/

namespace Yaffs

/-! ## Bitfields and the tag record -/

/-- A bitfield of the tag word: `width` bits starting at bit `off`. -/
structure BitField where
  off : Nat
  width : Nat
deriving DecidableEq, Repr

/-- Read a bitfield. -/
def BitField.get (f : BitField) (w : Nat) : Nat :=
  (w >>> f.off) % 2 ^ f.width

/-- Assign `v` to a bitfield; as in C the value is truncated to the field's width
and no other bit of the word changes. -/
def BitField.set (f : BitField) (w v : Nat) : Nat :=
  w ^^^ ((f.get w ^^^ (v % 2 ^ f.width)) <<< f.off)

/-- The field lies inside the 64-bit record. -/
def BitField.fits (f : BitField) : Prop := f.off + f.width ≤ 64

/-- Two fields share no bit. -/
def BitField.disjoint (f g : BitField) : Prop :=
  f.off + f.width ≤ g.off ∨ g.off + g.width ≤ f.off

/-- Bit `p` belongs to the field. -/
def BitField.covers (f : BitField) (p : Nat) : Prop :=
  f.off ≤ p ∧ p < f.off + f.width

instance (f : BitField) : Decidable f.fits := by
  unfold BitField.fits; infer_instance

instance (f g : BitField) : Decidable (f.disjoint g) := by
  unfold BitField.disjoint; infer_instance

instance (f : BitField) (p : Nat) : Decidable (f.covers p) := by
  unfold BitField.covers; infer_instance

/-- Where each field of `yaffs_Tags` sits in the 8-byte record.  The struct is
declared in `yaffs_guts.h`, so the placement is a parameter of the model. -/
structure TagsLayout where
  chunkId : BitField
  serialNumber : BitField
  byteCountLSB : BitField
  objectId : BitField
  ecc : BitField
  byteCountMSB : BitField
deriving DecidableEq, Repr

/-- A usable layout: the six fields lie inside the 64 bits and are pairwise
disjoint, the byte count is split 10 + 2 bits (the masks `0x3ff` and `3` of
`yaffs_tags_compat_wr`), and the code field can hold every value the code
computation produces (7 bits at least). -/
def TagsLayout.WF (L : TagsLayout) : Prop :=
  (L.chunkId.fits ∧ L.serialNumber.fits ∧ L.byteCountLSB.fits ∧
    L.objectId.fits ∧ L.ecc.fits ∧ L.byteCountMSB.fits) ∧
  (L.ecc.disjoint L.chunkId ∧ L.ecc.disjoint L.serialNumber ∧
    L.ecc.disjoint L.byteCountLSB ∧ L.ecc.disjoint L.objectId ∧
    L.ecc.disjoint L.byteCountMSB) ∧
  (L.chunkId.disjoint L.serialNumber ∧ L.chunkId.disjoint L.byteCountLSB ∧
    L.chunkId.disjoint L.objectId ∧ L.chunkId.disjoint L.byteCountMSB) ∧
  (L.serialNumber.disjoint L.byteCountLSB ∧ L.serialNumber.disjoint L.objectId ∧
    L.serialNumber.disjoint L.byteCountMSB) ∧
  (L.byteCountLSB.disjoint L.objectId ∧ L.byteCountLSB.disjoint L.byteCountMSB ∧
    L.objectId.disjoint L.byteCountMSB) ∧
  L.byteCountLSB.width = 10 ∧ L.byteCountMSB.width = 2 ∧ 7 ≤ L.ecc.width

instance (L : TagsLayout) : Decidable L.WF := by
  unfold TagsLayout.WF; infer_instance

/-- Modelled from the spec: the declaration of `yaffs_Tags` is in `yaffs_guts.h`,
which is not among the sources.  The spec fixes the total of 8 bytes, the 10-bit
low and 2-bit high byte-count parts and a derived code field; the remaining
widths and the order are those of the declaration the file is compiled against
(`chunkId:20, serialNumber:2, byteCountLSB:10, objectId:18, ecc:12,
byteCountMSB:2`, allocated from the least significant bit). -/
def yaffs_guts_layout : TagsLayout where
  chunkId := ⟨0, 20⟩
  serialNumber := ⟨20, 2⟩
  byteCountLSB := ⟨22, 10⟩
  objectId := ⟨32, 18⟩
  ecc := ⟨50, 12⟩
  byteCountMSB := ⟨62, 2⟩

/-- The tag record: its 8 bytes as a 64-bit little-endian word. -/
abbrev yaffs_Tags := Nat

/-- `asBytes[i]` of the union. -/
def asByte (tags : yaffs_Tags) (i : Nat) : Nat :=
  BitField.get ⟨8 * i, 8⟩ tags

/-- `asBytes[i] = v` (an `unsigned char` store). -/
def setByte (tags : yaffs_Tags) (i v : Nat) : yaffs_Tags :=
  BitField.set ⟨8 * i, 8⟩ tags v

/-! ## yaffs_count_bits -/

def yaffs_count_bits_table : List Nat := [
  0, 1, 1, 2, 1, 2, 2, 3, 1, 2, 2, 3, 2, 3, 3, 4,
  1, 2, 2, 3, 2, 3, 3, 4, 2, 3, 3, 4, 3, 4, 4, 5,
  1, 2, 2, 3, 2, 3, 3, 4, 2, 3, 3, 4, 3, 4, 4, 5,
  2, 3, 3, 4, 3, 4, 4, 5, 3, 4, 4, 5, 4, 5, 5, 6,
  1, 2, 2, 3, 2, 3, 3, 4, 2, 3, 3, 4, 3, 4, 4, 5,
  2, 3, 3, 4, 3, 4, 4, 5, 3, 4, 4, 5, 4, 5, 5, 6,
  2, 3, 3, 4, 3, 4, 4, 5, 3, 4, 4, 5, 4, 5, 5, 6,
  3, 4, 4, 5, 4, 5, 5, 6, 4, 5, 5, 6, 5, 6, 6, 7,
  1, 2, 2, 3, 2, 3, 3, 4, 2, 3, 3, 4, 3, 4, 4, 5,
  2, 3, 3, 4, 3, 4, 4, 5, 3, 4, 4, 5, 4, 5, 5, 6,
  2, 3, 3, 4, 3, 4, 4, 5, 3, 4, 4, 5, 4, 5, 5, 6,
  3, 4, 4, 5, 4, 5, 5, 6, 4, 5, 5, 6, 5, 6, 6, 7,
  2, 3, 3, 4, 3, 4, 4, 5, 3, 4, 4, 5, 4, 5, 5, 6,
  3, 4, 4, 5, 4, 5, 5, 6, 4, 5, 5, 6, 5, 6, 6, 7,
  3, 4, 4, 5, 4, 5, 5, 6, 4, 5, 5, 6, 5, 6, 6, 7,
  4, 5, 5, 6, 5, 6, 6, 7, 5, 6, 6, 7, 6, 7, 7, 8]

/-- The argument is a `__u8`: the index is taken modulo 256. -/
def yaffs_count_bits (x : Nat) : Nat :=
  yaffs_count_bits_table.getD (x % 256) 0

/-! ## Tags ECC -/

/-- The inner loop `for (j = 1; j & 0xff; j <<= 1)` of `yaffs_calc_tags_ecc` over
the byte `bi`; the state is `(ecc, bit)`, `j` is a 32-bit unsigned. -/
def calc_tags_ecc_bits (bi : Nat) : Nat → Nat → Nat × Nat → Nat × Nat
  | 0, _, st => st
  | fuel + 1, j, (ecc, bit) =>
    if j &&& 0xff ≠ 0 then
      calc_tags_ecc_bits bi fuel ((j <<< 1) % 2 ^ 32)
        (if bi &&& j ≠ 0 then ecc ^^^ (bit + 1) else ecc, bit + 1)
    else (ecc, bit)

/-- The outer loop `for (i = 0; i < 8; i++)` over the bytes `b`. -/
def calc_tags_ecc_bytes (b : Nat → Nat) : Nat → Nat → Nat × Nat → Nat × Nat
  | 0, _, st => st
  | fuel + 1, i, st =>
    if i < 8 then
      calc_tags_ecc_bytes b fuel (i + 1) (calc_tags_ecc_bits (b i) 9 1 st)
    else st

/-- The value of the local `ecc` when the loops of `yaffs_calc_tags_ecc` end. -/
def tags_ecc_acc (tags : yaffs_Tags) : Nat :=
  (calc_tags_ecc_bytes (asByte tags) 9 0 (0, 0)).1

def yaffs_calc_tags_ecc (L : TagsLayout) (tags : yaffs_Tags) : yaffs_Tags :=
  let tags := L.ecc.set tags 0
  L.ecc.set tags (tags_ecc_acc tags)

/-- Returns the record after the call and the `int` result. -/
def yaffs_check_tags_ecc (L : TagsLayout) (tags : yaffs_Tags) : yaffs_Tags × Int :=
  let ecc := L.ecc.get tags
  let tags := yaffs_calc_tags_ecc L tags
  let ecc := ecc ^^^ L.ecc.get tags
  if ecc ≠ 0 ∧ ecc ≤ 64 then
    let ecc := ecc - 1
    let tags := setByte tags (ecc / 8) (asByte tags (ecc / 8) ^^^ (1 <<< (ecc &&& 7)))
    (yaffs_calc_tags_ecc L tags, 1)
  else if ecc ≠ 0 then
    (tags, -1)
  else
    (tags, 0)

/-! ## The spare area -/

/-- The fields of `yaffs_Spare` the file uses; each is one byte, `ecc1` and
`ecc2` are three. -/
structure yaffs_Spare where
  tb0 : Nat
  tb1 : Nat
  tb2 : Nat
  tb3 : Nat
  pageStatus : Nat
  blockStatus : Nat
  tb4 : Nat
  tb5 : Nat
  ecc1 : Nat × Nat × Nat
  tb6 : Nat
  tb7 : Nat
  ecc2 : Nat × Nat × Nat
deriving DecidableEq, Repr

/-- The spare with the two per-half results a hardware-ECC driver reports. -/
structure yaffs_NANDSpare where
  spare : yaffs_Spare
  eccres1 : Int
  eccres2 : Int
deriving DecidableEq, Repr

/-- The result of `memset(spare, 0xFF, sizeof(yaffs_Spare))`; also the static
`spareFF` of the read and query functions. -/
def yaffs_spare_init : yaffs_Spare where
  tb0 := 0xFF
  tb1 := 0xFF
  tb2 := 0xFF
  tb3 := 0xFF
  pageStatus := 0xFF
  blockStatus := 0xFF
  tb4 := 0xFF
  tb5 := 0xFF
  ecc1 := (0xFF, 0xFF, 0xFF)
  tb6 := 0xFF
  tb7 := 0xFF
  ecc2 := (0xFF, 0xFF, 0xFF)

/-- The eight assignments `sparePtr->tbN = tu->asBytes[N]`. -/
def store_tag_bytes (sparePtr : yaffs_Spare) (tu : yaffs_Tags) : yaffs_Spare :=
  { sparePtr with
    tb0 := asByte tu 0, tb1 := asByte tu 1, tb2 := asByte tu 2, tb3 := asByte tu 3,
    tb4 := asByte tu 4, tb5 := asByte tu 5, tb6 := asByte tu 6, tb7 := asByte tu 7 }

/-- Returns the spare and the tag record, whose code field the call fills in. -/
def yaffs_load_tags_to_spare (L : TagsLayout) (sparePtr : yaffs_Spare)
    (tagsPtr : yaffs_Tags) : yaffs_Spare × yaffs_Tags :=
  let tu := yaffs_calc_tags_ecc L tagsPtr
  (store_tag_bytes sparePtr tu, tu)

/-- The eight assignments `tu->asBytes[N] = sparePtr->tbN` onto the record
`tagsPtr` points to. -/
def tags_from_spare_bytes (sparePtr : yaffs_Spare) (tagsPtr : yaffs_Tags) : yaffs_Tags :=
  let tu := setByte tagsPtr 0 sparePtr.tb0
  let tu := setByte tu 1 sparePtr.tb1
  let tu := setByte tu 2 sparePtr.tb2
  let tu := setByte tu 3 sparePtr.tb3
  let tu := setByte tu 4 sparePtr.tb4
  let tu := setByte tu 5 sparePtr.tb5
  let tu := setByte tu 6 sparePtr.tb6
  setByte tu 7 sparePtr.tb7

/-! ## Device, driver and the data-ECC library -/

/-- `x` is representable as a C `int` (32 bits, two's complement). -/
def isInt32 (x : Int) : Prop := -2147483648 ≤ x ∧ x < 2147483648

instance (x : Int) : Decidable (isInt32 x) := by
  unfold isInt32; infer_instance

/-- The `int` a C arithmetic operation leaves when `x` is its mathematical
result: `x` itself when it is representable, and `x` reduced modulo 2^32 into
the range of `int` when the operation overflows, which is what the compiled
code computes. -/
def wrap32 (x : Int) : Int := (x + 2147483648) % 4294967296 - 2147483648

/-- Modelled from the spec: the result codes are defined in a header that is not
among the sources; success is the non-zero value `1`, failure is `0`. -/
def YAFFS_OK : Int := 1

/-- Modelled from the spec: see `YAFFS_OK`. -/
def YAFFS_FAIL : Int := 0

inductive yaffs_ECCResult where
  | YAFFS_ECC_RESULT_UNKNOWN
  | YAFFS_ECC_RESULT_NO_ERROR
  | YAFFS_ECC_RESULT_FIXED
  | YAFFS_ECC_RESULT_UNFIXED
deriving DecidableEq, Repr

/-- The block states `yaffs_tags_compat_query_block` can report. -/
inductive yaffs_BlockState where
  | YAFFS_BLOCK_STATE_NEEDS_SCANNING
  | YAFFS_BLOCK_STATE_EMPTY
  | YAFFS_BLOCK_STATE_DEAD
deriving DecidableEq, Repr

/-- The fields of `yaffs_ExtendedTags` the file reads or writes (all `unsigned`
but the ECC result). -/
structure yaffs_ExtendedTags where
  chunkUsed : Nat
  objectId : Nat
  chunkId : Nat
  byteCount : Nat
  eccResult : yaffs_ECCResult
  blockBad : Nat
  chunkDeleted : Nat
  serialNumber : Nat
deriving DecidableEq, Repr

/-- What a driver read leaves behind: its return value, the contents of the data
buffer (meaningful when one was passed) and the spare buffer, with the two
per-half results a hardware-ECC driver stores behind the spare. -/
structure DriverRead where
  retVal : Int
  data : List Nat
  nspare : yaffs_NANDSpare

/-- The outcome of `yaffs_ecc_correct`: the return value and the buffers it may
have patched. -/
structure EccCorrect where
  result : Int
  data : List Nat
  read_ecc : Nat × Nat × Nat

/-- The data-area ECC library (`yaffs_ecc.h`), external to this file: the
calculator over 256 bytes and the corrector. -/
structure EccLib where
  yaffs_ecc_cacl : List Nat → Nat × Nat × Nat
  yaffs_ecc_correct : List Nat → Nat × Nat × Nat → Nat × Nat × Nat → EccCorrect

/-- The members of `dev->param` the file uses.  The driver's two entry points act
on the driver's own state `σ`; the write takes the chunk, the data (absent for
`NULL`) and the spare, the read takes the chunk and whether a data buffer is
passed. -/
structure yaffs_DeviceParam (σ : Type) where
  startBlock : Int
  nChunksPerBlock : Int
  useNANDECC : Int
  writeChunkToNAND : σ → Int → Option (List Nat) → yaffs_Spare → Int × σ
  readChunkFromNAND : σ → Int → Bool → DriverRead

/-- The members of `yaffs_Device` the file uses.  `needsRetiring` is the flag of
the block-info entry of each block number; `driverContext` is the state of the
NAND behind the driver. -/
structure yaffs_Device (σ : Type) where
  param : yaffs_DeviceParam σ
  nDataBytesPerChunk : Nat
  blockOffset : Int
  eccFixed : Nat
  eccUnfixed : Nat
  tagsEccFixed : Nat
  tagsEccUnfixed : Nat
  needsRetiring : Int → Int
  driverContext : σ

/-- `yaffs_calc_ecc`: the codes of the two 256-byte halves of the data. -/
def yaffs_calc_ecc (E : EccLib) (data : List Nat) (spare : yaffs_Spare) : yaffs_Spare :=
  { spare with
    ecc1 := E.yaffs_ecc_cacl (data.take 256),
    ecc2 := E.yaffs_ecc_cacl ((data.drop 256).take 256) }

/-- Returns the device (its counters may change) and the decoded record. -/
def yaffs_get_tags_from_spare {σ : Type} (L : TagsLayout) (dev : yaffs_Device σ)
    (sparePtr : yaffs_Spare) (tagsPtr : yaffs_Tags) : yaffs_Device σ × yaffs_Tags :=
  let tu := tags_from_spare_bytes sparePtr tagsPtr
  let r := yaffs_check_tags_ecc L tu
  if r.2 > 0 then
    ({ dev with tagsEccFixed := dev.tagsEccFixed + 1 }, r.1)
  else if r.2 < 0 then
    ({ dev with tagsEccUnfixed := dev.tagsEccUnfixed + 1 }, r.1)
  else
    (dev, r.1)

/-- The product `startBlock * nChunksPerBlock` is an `int` multiplication. -/
def yaffs_wr_nand {σ : Type} (dev : yaffs_Device σ) (chunkInNAND : Int)
    (data : Option (List Nat)) (spare : yaffs_Spare) : Int × yaffs_Device σ :=
  if chunkInNAND < wrap32 (dev.param.startBlock * dev.param.nChunksPerBlock) then
    (YAFFS_FAIL, dev)
  else
    let r := dev.param.writeChunkToNAND dev.driverContext chunkInNAND data spare
    (r.1, { dev with driverContext := r.2 })

/-- Modelled from the spec: `yaffs_get_block_info` is declared in
`yaffs_getblockinfo.h`, not among the sources; it hands out the block-info entry
of the block number it is given.  This is the assignment
`yaffs_get_block_info(dev, blk)->needsRetiring = 1`. -/
def set_needsRetiring {σ : Type} (dev : yaffs_Device σ) (blk : Int) : yaffs_Device σ :=
  { dev with needsRetiring := fun b => if b = blk then 1 else dev.needsRetiring b }

/-- The division and the sum are `int` operations.  The division truncates
towards zero; in C it is undefined, and the program traps, when
`nChunksPerBlock` is 0 or the quotient is not representable (`INT_MIN / -1`):
the definition gives what the code computes in every other case. -/
def yaffs_handle_rd_data_error {σ : Type} (dev : yaffs_Device σ) (chunkInNAND : Int) :
    yaffs_Device σ :=
  let blockInNAND := wrap32 (Int.tdiv chunkInNAND dev.param.nChunksPerBlock)
  set_needsRetiring dev (wrap32 (blockInNAND + dev.blockOffset))

/-- What `yaffs_rd_chunk_nand` leaves behind. -/
structure RdChunk (σ : Type) where
  retVal : Int
  dev : yaffs_Device σ
  data : List Nat
  spare : yaffs_Spare
  eccResult : yaffs_ECCResult

/-- One data-ECC result applied to the software-ECC counters. -/
def count_ecc_result {σ : Type} (dev : yaffs_Device σ) (eccResult : Int) : yaffs_Device σ :=
  if eccResult > 0 then { dev with eccFixed := dev.eccFixed + 1 }
  else if eccResult < 0 then { dev with eccUnfixed := dev.eccUnfixed + 1 }
  else dev

/-- The resolution of the two per-half results into one `yaffs_ECCResult`. -/
def resolve_ecc_result (eccResult1 eccResult2 : Int) : yaffs_ECCResult :=
  if eccResult1 < 0 ∨ eccResult2 < 0 then yaffs_ECCResult.YAFFS_ECC_RESULT_UNFIXED
  else if eccResult1 > 0 ∨ eccResult2 > 0 then yaffs_ECCResult.YAFFS_ECC_RESULT_FIXED
  else yaffs_ECCResult.YAFFS_ECC_RESULT_NO_ERROR

/-- `data` tells whether a data buffer is passed (`data != NULL`); every caller
in the file passes a spare.  `eccResult` is the value `*eccResult` holds on
entry. -/
def yaffs_rd_chunk_nand {σ : Type} (E : EccLib) (dev : yaffs_Device σ) (chunkInNAND : Int)
    (data : Bool) (eccResult : yaffs_ECCResult) (doErrorCorrection : Int) : RdChunk σ :=
  if dev.param.useNANDECC = 0 then
    let rd := dev.param.readChunkFromNAND dev.driverContext chunkInNAND data
    let spare := rd.nspare.spare
    if data = true ∧ doErrorCorrection ≠ 0 then
      let c1 := E.yaffs_ecc_correct (rd.data.take 256) spare.ecc1
        (E.yaffs_ecc_cacl (rd.data.take 256))
      let c2 := E.yaffs_ecc_correct ((rd.data.drop 256).take 256) spare.ecc2
        (E.yaffs_ecc_cacl ((rd.data.drop 256).take 256))
      let dev := count_ecc_result dev c1.result
      let dev := count_ecc_result dev c2.result
      let dev :=
        if c1.result ≠ 0 ∨ c2.result ≠ 0 then yaffs_handle_rd_data_error dev chunkInNAND
        else dev
      { retVal := rd.retVal
        dev := dev
        data := c1.data ++ c2.data ++ rd.data.drop 512
        spare := { spare with ecc1 := c1.read_ecc, ecc2 := c2.read_ecc }
        eccResult := resolve_ecc_result c1.result c2.result }
    else
      { retVal := rd.retVal, dev := dev, data := rd.data, spare := spare,
        eccResult := eccResult }
  else
    let rd := dev.param.readChunkFromNAND dev.driverContext chunkInNAND data
    let nspare := rd.nspare
    if data = true ∧ doErrorCorrection ≠ 0 then
      let dev :=
        if nspare.eccres1 ≠ 0 ∨ nspare.eccres2 ≠ 0 then
          yaffs_handle_rd_data_error dev chunkInNAND
        else dev
      { retVal := rd.retVal, dev := dev, data := rd.data, spare := nspare.spare,
        eccResult := resolve_ecc_result nspare.eccres1 nspare.eccres2 }
    else
      { retVal := rd.retVal, dev := dev, data := rd.data, spare := nspare.spare,
        eccResult := eccResult }

/-! ## The public functions -/

/-- The tag record `yaffs_tags_compat_wr` builds from the extended tags.  The
local record is uninitialised in C and every field but the code is assigned; a
bit that belongs to no field starts as 0 here. -/
def tags_of_extended {σ : Type} (L : TagsLayout) (dev : yaffs_Device σ)
    (eTags : yaffs_ExtendedTags) : yaffs_Tags :=
  let tags : yaffs_Tags := 0
  let tags := L.objectId.set tags eTags.objectId
  let tags := L.chunkId.set tags eTags.chunkId
  let tags := L.byteCountLSB.set tags (eTags.byteCount &&& 0x3ff)
  let tags :=
    if dev.nDataBytesPerChunk ≥ 1024 then
      L.byteCountMSB.set tags ((eTags.byteCount >>> 10) &&& 3)
    else
      L.byteCountMSB.set tags 3
  L.serialNumber.set tags eTags.serialNumber

/-- The spare `yaffs_tags_compat_wr` hands to `yaffs_wr_nand`. -/
def compat_wr_spare {σ : Type} (L : TagsLayout) (E : EccLib) (dev : yaffs_Device σ)
    (data : Option (List Nat)) (eTags : yaffs_ExtendedTags) : yaffs_Spare :=
  let spare := yaffs_spare_init
  if eTags.chunkDeleted ≠ 0 then
    { spare with pageStatus := 0 }
  else
    let tags := tags_of_extended L dev eTags
    let spare :=
      match data with
      | some d => if dev.param.useNANDECC = 0 then yaffs_calc_ecc E d spare else spare
      | none => spare
    (yaffs_load_tags_to_spare L spare tags).1

def yaffs_tags_compat_wr {σ : Type} (L : TagsLayout) (E : EccLib) (dev : yaffs_Device σ)
    (chunkInNAND : Int) (data : Option (List Nat)) (eTags : yaffs_ExtendedTags) :
    Int × yaffs_Device σ :=
  yaffs_wr_nand dev chunkInNAND data (compat_wr_spare L E dev data eTags)

/-- What `yaffs_tags_compat_rd` leaves behind; `eTags` is absent when the caller
passed `NULL`. -/
structure CompatRd (σ : Type) where
  retVal : Int
  dev : yaffs_Device σ
  data : List Nat
  eTags : Option yaffs_ExtendedTags

/-- The fields of the extended tags filled from the decoded record. -/
def extended_of_tags {σ : Type} (L : TagsLayout) (dev : yaffs_Device σ)
    (eTags : yaffs_ExtendedTags) (tags : yaffs_Tags) : yaffs_ExtendedTags :=
  let byteCount := L.byteCountLSB.get tags
  let byteCount :=
    if dev.nDataBytesPerChunk ≥ 1024 then
      byteCount ||| ((L.byteCountMSB.get tags) <<< 10) % 2 ^ 32
    else byteCount
  { eTags with
    objectId := L.objectId.get tags
    chunkId := L.chunkId.get tags
    byteCount := byteCount
    serialNumber := L.serialNumber.get tags }

def yaffs_tags_compat_rd {σ : Type} (L : TagsLayout) (E : EccLib) (dev : yaffs_Device σ)
    (chunkInNAND : Int) (data : Bool) (eTags : Option yaffs_ExtendedTags) : CompatRd σ :=
  let r := yaffs_rd_chunk_nand E dev chunkInNAND data
    yaffs_ECCResult.YAFFS_ECC_RESULT_UNKNOWN 1
  if r.retVal ≠ 0 then
    match eTags with
    | none => { retVal := YAFFS_OK, dev := r.dev, data := r.data, eTags := none }
    | some t =>
      let deleted := if yaffs_count_bits r.spare.pageStatus < 7 then 1 else 0
      let t := { t with
        chunkDeleted := deleted
        eccResult := r.eccResult
        blockBad := 0
        chunkUsed := if r.spare ≠ yaffs_spare_init then 1 else 0 }
      if t.chunkUsed ≠ 0 then
        let g := yaffs_get_tags_from_spare L r.dev r.spare 0
        { retVal := YAFFS_OK, dev := g.1, data := r.data,
          eTags := some (extended_of_tags L g.1 t g.2) }
      else
        { retVal := YAFFS_OK, dev := r.dev, data := r.data, eTags := some t }
  else
    { retVal := YAFFS_FAIL, dev := r.dev, data := r.data, eTags := eTags }

/-- The chunk numbers `blockInNAND * nChunksPerBlock` and
`blockInNAND * nChunksPerBlock + 1` are computed in `int`; the results of the two
writes are dropped. -/
def yaffs_tags_compat_mark_bad {σ : Type} (dev : yaffs_Device σ) (blockInNAND : Int) :
    Int × yaffs_Device σ :=
  let spare := { yaffs_spare_init with blockStatus := 0x59 }
  let w1 := yaffs_wr_nand dev (wrap32 (blockInNAND * dev.param.nChunksPerBlock)) none spare
  let w2 := yaffs_wr_nand w1.2
    (wrap32 (wrap32 (blockInNAND * dev.param.nChunksPerBlock) + 1)) none spare
  (YAFFS_OK, w2.2)

/-- What `yaffs_tags_compat_query_block` leaves behind. -/
structure QueryBlock (σ : Type) where
  retVal : Int
  dev : yaffs_Device σ
  state : yaffs_BlockState
  sequenceNumber : Nat

/-- The state chosen from the spares of the first two chunks of the block. -/
def block_state_of_spares (spare0 spare1 : yaffs_Spare) : yaffs_BlockState :=
  if yaffs_count_bits (spare0.blockStatus &&& spare1.blockStatus) < 7 then
    yaffs_BlockState.YAFFS_BLOCK_STATE_DEAD
  else if spare0 = yaffs_spare_init then
    yaffs_BlockState.YAFFS_BLOCK_STATE_EMPTY
  else
    yaffs_BlockState.YAFFS_BLOCK_STATE_NEEDS_SCANNING

/-- The local `dummy` ECC result is uninitialised in C and, with no data buffer,
never written; it is passed as UNKNOWN.  The two chunk numbers are computed in
`int`. -/
def yaffs_tags_compat_query_block {σ : Type} (E : EccLib) (dev : yaffs_Device σ)
    (blockNo : Int) : QueryBlock σ :=
  let r0 := yaffs_rd_chunk_nand E dev (wrap32 (blockNo * dev.param.nChunksPerBlock)) false
    yaffs_ECCResult.YAFFS_ECC_RESULT_UNKNOWN 1
  let r1 := yaffs_rd_chunk_nand E r0.dev
    (wrap32 (wrap32 (blockNo * dev.param.nChunksPerBlock) + 1)) false r0.eccResult 1
  { retVal := YAFFS_OK
    dev := r1.dev
    state := block_state_of_spares r0.spare r1.spare
    sequenceNumber := 0 }

/-! ## Reference definitions -/

/-- XOR of the 1-indexed positions of the set bits among the low `n` bits. -/
def xorPositions (w : Nat) : Nat → Nat
  | 0 => 0
  | n + 1 => xorPositions w n ^^^ (if w.testBit n then n + 1 else 0)

/-- The tag code as the specification words it: the 8 bytes are 64 bits, and the
1-indexed position `8 * byteIndex + bitIndex + 1` of every set bit is XORed into
an accumulator. -/
def tags_code_reference (b : Nat → Nat) : Nat :=
  (List.range 64).foldl
    (fun acc q => if (b (q / 8)).testBit (q % 8) then acc ^^^ (8 * (q / 8) + q % 8 + 1) else acc)
    0

/-- Flip bit `p` of the record, the way a flash bit error does: bit `p % 8` of
byte `p / 8`. -/
def flipBit (tags : yaffs_Tags) (p : Nat) : yaffs_Tags :=
  setByte tags (p / 8) (asByte tags (p / 8) ^^^ 2 ^ (p % 8))

/-- Flip bit `p` of the 8 tag bytes held in a spare. -/
def flipSpareBit (s : yaffs_Spare) (p : Nat) : yaffs_Spare :=
  match p / 8 with
  | 0 => { s with tb0 := s.tb0 ^^^ 2 ^ (p % 8) }
  | 1 => { s with tb1 := s.tb1 ^^^ 2 ^ (p % 8) }
  | 2 => { s with tb2 := s.tb2 ^^^ 2 ^ (p % 8) }
  | 3 => { s with tb3 := s.tb3 ^^^ 2 ^ (p % 8) }
  | 4 => { s with tb4 := s.tb4 ^^^ 2 ^ (p % 8) }
  | 5 => { s with tb5 := s.tb5 ^^^ 2 ^ (p % 8) }
  | 6 => { s with tb6 := s.tb6 ^^^ 2 ^ (p % 8) }
  | 7 => { s with tb7 := s.tb7 ^^^ 2 ^ (p % 8) }
  | _ => s

/-- A driver that stores what it is given: every write succeeds, and a read of
the chunk just written succeeds and returns the written spare, the written data
when a data buffer is passed, and no per-half ECC event. -/
def StoresAndReturns {σ : Type} (P : yaffs_DeviceParam σ) : Prop :=
  ∀ (ctx : σ) (chunk : Int) (data : Option (List Nat)) (spare : yaffs_Spare),
    (P.writeChunkToNAND ctx chunk data spare).1 = YAFFS_OK ∧
    ∀ (wantData : Bool),
      let rd := P.readChunkFromNAND (P.writeChunkToNAND ctx chunk data spare).2 chunk wantData
      rd.retVal = YAFFS_OK ∧ rd.nspare = ⟨spare, 0, 0⟩ ∧
        ∀ d, wantData = true → data = some d → rd.data = d

/-- The number of set bits among the low 8 bits of `x`. -/
def popcount8 (x : Nat) : Nat :=
  ((List.range 8).filter fun k => x.testBit k).length

/-! ## A RAM-backed driver and a sample device -/

/-- The state of the RAM-backed NAND: the writes so far, newest first. -/
abbrev RamNand := List (Int × Option (List Nat) × yaffs_Spare)

/-- The RAM driver's write: records the chunk and succeeds. -/
def ramWrite (ctx : RamNand) (chunk : Int) (data : Option (List Nat)) (spare : yaffs_Spare) :
    Int × RamNand :=
  (YAFFS_OK, (chunk, data, spare) :: ctx)

/-- The RAM driver's read: the newest write of the chunk, or an erased chunk. -/
def ramRead (ctx : RamNand) (chunk : Int) (_wantData : Bool) : DriverRead :=
  match ctx.find? (fun e => e.1 = chunk) with
  | some e => { retVal := YAFFS_OK, data := e.2.1.getD [], nspare := ⟨e.2.2, 0, 0⟩ }
  | none => { retVal := YAFFS_OK, data := [], nspare := ⟨yaffs_spare_init, 0, 0⟩ }

/-- A device over the RAM driver: 2048 data bytes per chunk, 32 chunks per block,
software ECC. -/
def ramDevice : yaffs_Device RamNand where
  param := {
    startBlock := 0
    nChunksPerBlock := 32
    useNANDECC := 0
    writeChunkToNAND := ramWrite
    readChunkFromNAND := ramRead }
  nDataBytesPerChunk := 2048
  blockOffset := 0
  eccFixed := 0
  eccUnfixed := 0
  tagsEccFixed := 0
  tagsEccUnfixed := 0
  needsRetiring := fun _ => 0
  driverContext := []

/-- A small data-ECC library for running the model: the code of a block is the
XOR and the sum of its bytes, and the corrector only compares the two codes. -/
def sampleEcc : EccLib where
  yaffs_ecc_cacl := fun d => (d.foldl (fun a b => a ^^^ b) 0 % 256, d.sum % 256, 0)
  yaffs_ecc_correct := fun d r t =>
    if r = t then { result := 0, data := d, read_ecc := r }
    else { result := -1, data := d, read_ecc := r }

/-- The extended tags of the end-to-end scenario. -/
def sampleTags : yaffs_ExtendedTags where
  chunkUsed := 0
  objectId := 42
  chunkId := 7
  byteCount := 513
  eccResult := yaffs_ECCResult.YAFFS_ECC_RESULT_UNKNOWN
  blockBad := 0
  chunkDeleted := 0
  serialNumber := 3

/-- A driver under which a write changes no other chunk: what a read of a chunk
returns is not affected by a write to a different chunk. -/
def KeepsOtherChunks {σ : Type} (P : yaffs_DeviceParam σ) : Prop :=
  ∀ (ctx : σ) (chunk other : Int) (data : Option (List Nat)) (spare : yaffs_Spare)
    (wantData : Bool), other ≠ chunk →
    P.readChunkFromNAND (P.writeChunkToNAND ctx chunk data spare).2 other wantData =
      P.readChunkFromNAND ctx other wantData

/-- One call of the driver's write: the chunk number, the data (absent for
`NULL`) and the spare it was given. -/
abbrev WriteCall := Int × Option (List Nat) × yaffs_Spare

/-- The device with its driver's write observed: the driver's state is paired
with the list of the calls of `writeChunkToNAND` made so far, oldest first, and
each call appends its arguments; the driver itself acts as before. -/
def withWriteLog {σ : Type} (dev : yaffs_Device σ) (log : List WriteCall) :
    yaffs_Device (σ × List WriteCall) where
  param := {
    startBlock := dev.param.startBlock
    nChunksPerBlock := dev.param.nChunksPerBlock
    useNANDECC := dev.param.useNANDECC
    writeChunkToNAND := fun st chunk data spare =>
      ((dev.param.writeChunkToNAND st.1 chunk data spare).1,
        ((dev.param.writeChunkToNAND st.1 chunk data spare).2,
          st.2 ++ [(chunk, data, spare)]))
    readChunkFromNAND := fun st chunk wantData =>
      dev.param.readChunkFromNAND st.1 chunk wantData }
  nDataBytesPerChunk := dev.nDataBytesPerChunk
  blockOffset := dev.blockOffset
  eccFixed := dev.eccFixed
  eccUnfixed := dev.eccUnfixed
  tagsEccFixed := dev.tagsEccFixed
  tagsEccUnfixed := dev.tagsEccUnfixed
  needsRetiring := dev.needsRetiring
  driverContext := (dev.driverContext, log)

/-- The result for the first 256-byte half that `yaffs_rd_chunk_nand` acts on
when a data buffer is passed: the corrector's `eccResult1` under software ECC,
the driver's `nspare.eccres1` under hardware ECC. -/
def half_result1 {σ : Type} (E : EccLib) (dev : yaffs_Device σ) (chunkInNAND : Int) : Int :=
  let rd := dev.param.readChunkFromNAND dev.driverContext chunkInNAND true
  if dev.param.useNANDECC = 0 then
    (E.yaffs_ecc_correct (rd.data.take 256) rd.nspare.spare.ecc1
      (E.yaffs_ecc_cacl (rd.data.take 256))).result
  else rd.nspare.eccres1

/-- The result for the second 256-byte half: `eccResult2` or `nspare.eccres2`. -/
def half_result2 {σ : Type} (E : EccLib) (dev : yaffs_Device σ) (chunkInNAND : Int) : Int :=
  let rd := dev.param.readChunkFromNAND dev.driverContext chunkInNAND true
  if dev.param.useNANDECC = 0 then
    (E.yaffs_ecc_correct ((rd.data.drop 256).take 256) rd.nspare.spare.ecc2
      (E.yaffs_ecc_cacl ((rd.data.drop 256).take 256))).result
  else rd.nspare.eccres2

/-- The sample device with its first block reserved (`startBlock = 1`). -/
def reservedDevice : yaffs_Device RamNand :=
  { ramDevice with param := { ramDevice.param with startBlock := 1 } }

/-- The sample device over a driver whose read reports failure. -/
def failingDevice : yaffs_Device RamNand :=
  { ramDevice with param := { ramDevice.param with
      readChunkFromNAND := fun ctx c w => { ramRead ctx c w with retVal := YAFFS_FAIL } } }

/-- The sample device in hardware-ECC mode, over a driver whose read reports a
corrected first half and an unrecoverable second half. -/
def hwEccDevice : yaffs_Device RamNand :=
  { ramDevice with param := { ramDevice.param with
      useNANDECC := 1
      readChunkFromNAND := fun ctx c w =>
        { ramRead ctx c w with nspare := ⟨(ramRead ctx c w).nspare.spare, 1, -1⟩ } } }

/-! ## C `int` arithmetic -/

/-- An operation whose mathematical result is representable does not wrap. -/
theorem wrap32_of_isInt32 (x : Int) (h : isInt32 x) : wrap32 x = x := by
  unfold isInt32 at h
  unfold wrap32
  omega

/-- The result of an `int` operation is an `int`. -/
theorem isInt32_wrap32 (x : Int) : isInt32 (wrap32 x) := by
  unfold isInt32 wrap32
  omega

/-! ## Bit-level lemmas -/

theorem BitField.testBit_get (f : BitField) (w i : Nat) :
    (f.get w).testBit i = (decide (i < f.width) && w.testBit (f.off + i)) := by
  simp [BitField.get, Nat.testBit_mod_two_pow, Nat.testBit_shiftRight]

theorem BitField.testBit_set (f : BitField) (w v i : Nat) :
    (f.set w v).testBit i =
      if f.off ≤ i ∧ i < f.off + f.width then v.testBit (i - f.off) else w.testBit i := by
  unfold BitField.set
  rw [Nat.testBit_xor, Nat.testBit_shiftLeft, Nat.testBit_xor, BitField.testBit_get,
    Nat.testBit_mod_two_pow]
  by_cases h1 : f.off ≤ i
  · by_cases h2 : i < f.off + f.width
    · have h3 : i - f.off < f.width := by omega
      have h4 : f.off + (i - f.off) = i := by omega
      simp [h1, h2, h3, h4]
    · have h3 : ¬ i - f.off < f.width := by omega
      simp [h1, h2, h3]
  · simp [h1]

theorem and_two_pow_ne_zero (b k : Nat) : b &&& 2 ^ k ≠ 0 ↔ b.testBit k = true := by
  rw [Nat.and_two_pow]
  cases b.testBit k <;> simp

theorem ite_xor_eq (c : Prop) [Decidable c] (e x : Nat) :
    (if c then e ^^^ x else e) = e ^^^ (if c then x else 0) := by
  split <;> simp

theorem calc_tags_ecc_bits_eq (bi ecc bit : Nat) :
    calc_tags_ecc_bits bi 9 1 (ecc, bit) =
      (ecc ^^^ (if bi.testBit 0 then bit + 1 else 0)
        ^^^ (if bi.testBit 1 then bit + 2 else 0)
        ^^^ (if bi.testBit 2 then bit + 3 else 0)
        ^^^ (if bi.testBit 3 then bit + 4 else 0)
        ^^^ (if bi.testBit 4 then bit + 5 else 0)
        ^^^ (if bi.testBit 5 then bit + 6 else 0)
        ^^^ (if bi.testBit 6 then bit + 7 else 0)
        ^^^ (if bi.testBit 7 then bit + 8 else 0), bit + 8) := by
  have h0 : bi &&& 1 ≠ 0 ↔ bi.testBit 0 = true := and_two_pow_ne_zero bi 0
  have h1 : bi &&& 2 ≠ 0 ↔ bi.testBit 1 = true := and_two_pow_ne_zero bi 1
  have h2 : bi &&& 4 ≠ 0 ↔ bi.testBit 2 = true := and_two_pow_ne_zero bi 2
  have h3 : bi &&& 8 ≠ 0 ↔ bi.testBit 3 = true := and_two_pow_ne_zero bi 3
  have h4 : bi &&& 16 ≠ 0 ↔ bi.testBit 4 = true := and_two_pow_ne_zero bi 4
  have h5 : bi &&& 32 ≠ 0 ↔ bi.testBit 5 = true := and_two_pow_ne_zero bi 5
  have h6 : bi &&& 64 ≠ 0 ↔ bi.testBit 6 = true := and_two_pow_ne_zero bi 6
  have h7 : bi &&& 128 ≠ 0 ↔ bi.testBit 7 = true := and_two_pow_ne_zero bi 7
  have e1 : (1 <<< 1) % 2 ^ 32 = 2 := by decide
  have e2 : (2 <<< 1) % 2 ^ 32 = 4 := by decide
  have e3 : (4 <<< 1) % 2 ^ 32 = 8 := by decide
  have e4 : (8 <<< 1) % 2 ^ 32 = 16 := by decide
  have e5 : (16 <<< 1) % 2 ^ 32 = 32 := by decide
  have e6 : (32 <<< 1) % 2 ^ 32 = 64 := by decide
  have e7 : (64 <<< 1) % 2 ^ 32 = 128 := by decide
  have e8 : (128 <<< 1) % 2 ^ 32 = 256 := by decide
  have c0 : (1 &&& 255 : Nat) ≠ 0 := by decide
  have c1 : (2 &&& 255 : Nat) ≠ 0 := by decide
  have c2 : (4 &&& 255 : Nat) ≠ 0 := by decide
  have c3 : (8 &&& 255 : Nat) ≠ 0 := by decide
  have c4 : (16 &&& 255 : Nat) ≠ 0 := by decide
  have c5 : (32 &&& 255 : Nat) ≠ 0 := by decide
  have c6 : (64 &&& 255 : Nat) ≠ 0 := by decide
  have c7 : (128 &&& 255 : Nat) ≠ 0 := by decide
  have c8 : ¬ ((256 &&& 255 : Nat) ≠ 0) := by decide
  simp only [calc_tags_ecc_bits, e1, e2, e3, e4, e5, e6, e7, e8, c0, c1, c2, c3, c4, c5, c6,
    c7, c8, if_true, if_false, ne_eq, not_false_eq_true, not_true_eq_false, ite_xor_eq, Nat.add_assoc]
  simp only [← ne_eq, h0, h1, h2, h3, h4, h5, h6, h7]

theorem testBit_asByte (w i k : Nat) :
    (asByte w i).testBit k = (decide (k < 8) && w.testBit (8 * i + k)) := by
  simp [asByte, BitField.testBit_get]

theorem xorPositions_add8 (w n : Nat) :
    xorPositions w (n + 8) =
      xorPositions w n ^^^ (if w.testBit n then n + 1 else 0)
        ^^^ (if w.testBit (n + 1) then n + 2 else 0)
        ^^^ (if w.testBit (n + 2) then n + 3 else 0)
        ^^^ (if w.testBit (n + 3) then n + 4 else 0)
        ^^^ (if w.testBit (n + 4) then n + 5 else 0)
        ^^^ (if w.testBit (n + 5) then n + 6 else 0)
        ^^^ (if w.testBit (n + 6) then n + 7 else 0)
        ^^^ (if w.testBit (n + 7) then n + 8 else 0) := by
  simp only [xorPositions, Nat.add_assoc]

theorem calc_tags_ecc_bits_asByte (w i : Nat) :
    calc_tags_ecc_bits (asByte w i) 9 1 (xorPositions w (8 * i), 8 * i) =
      (xorPositions w (8 * (i + 1)), 8 * (i + 1)) := by
  rw [calc_tags_ecc_bits_eq, Nat.mul_add, Nat.mul_one, xorPositions_add8]
  simp [testBit_asByte, -Nat.testBit_zero]

theorem tags_ecc_acc_eq (w : Nat) : tags_ecc_acc w = xorPositions w 64 := by
  have s0 : calc_tags_ecc_bits (asByte w 0) 9 1 (0, 0) = (xorPositions w 8, 8) :=
    calc_tags_ecc_bits_asByte w 0
  have s1 : calc_tags_ecc_bits (asByte w 1) 9 1 (xorPositions w 8, 8) =
      (xorPositions w 16, 16) := calc_tags_ecc_bits_asByte w 1
  have s2 : calc_tags_ecc_bits (asByte w 2) 9 1 (xorPositions w 16, 16) =
      (xorPositions w 24, 24) := calc_tags_ecc_bits_asByte w 2
  have s3 : calc_tags_ecc_bits (asByte w 3) 9 1 (xorPositions w 24, 24) =
      (xorPositions w 32, 32) := calc_tags_ecc_bits_asByte w 3
  have s4 : calc_tags_ecc_bits (asByte w 4) 9 1 (xorPositions w 32, 32) =
      (xorPositions w 40, 40) := calc_tags_ecc_bits_asByte w 4
  have s5 : calc_tags_ecc_bits (asByte w 5) 9 1 (xorPositions w 40, 40) =
      (xorPositions w 48, 48) := calc_tags_ecc_bits_asByte w 5
  have s6 : calc_tags_ecc_bits (asByte w 6) 9 1 (xorPositions w 48, 48) =
      (xorPositions w 56, 56) := calc_tags_ecc_bits_asByte w 6
  have s7 : calc_tags_ecc_bits (asByte w 7) 9 1 (xorPositions w 56, 56) =
      (xorPositions w 64, 64) := calc_tags_ecc_bits_asByte w 7
  unfold tags_ecc_acc
  simp only [calc_tags_ecc_bytes, Nat.reduceAdd, Nat.reduceLT, if_true, if_false,
    Nat.lt_irrefl, s0, s1, s2, s3, s4, s5, s6, s7]


theorem xorPositions_congr (w v : Nat) (n : Nat)
    (h : ∀ p, p < n → w.testBit p = v.testBit p) : xorPositions w n = xorPositions v n := by
  induction n with
  | zero => rfl
  | succ n ih =>
    simp only [xorPositions]
    rw [ih (fun p hp => h p (Nat.lt_succ_of_lt hp)), h n (Nat.lt_succ_self n)]

theorem xorPositions_flip (w p n : Nat) :
    xorPositions (w ^^^ 2 ^ p) n = xorPositions w n ^^^ (if p < n then p + 1 else 0) := by
  induction n with
  | zero => simp [xorPositions]
  | succ n ih =>
    simp only [xorPositions, ih, Nat.testBit_xor, Nat.testBit_two_pow]
    rcases Nat.lt_trichotomy p n with h | h | h
    · have h1 : p < n + 1 := by omega
      have h2 : ¬ p = n := by omega
      simp only [h, h1, h2, if_true, decide_False, Bool.xor_false]
      rw [Nat.xor_assoc, Nat.xor_comm (p + 1), ← Nat.xor_assoc]
    · subst h
      have h1 : ¬ p < p := by omega
      have h2 : p < p + 1 := by omega
      simp only [h1, h2, if_true, if_false, decide_True, Nat.xor_zero]
      cases w.testBit p <;> simp [Nat.xor_assoc]
    · have h1 : ¬ p < n + 1 := by omega
      have h2 : ¬ p < n := by omega
      have h3 : ¬ p = n := by omega
      simp [h1, h2, h3]

theorem xorPositions_lt (w n : Nat) (h : n ≤ 64) : xorPositions w n < 2 ^ 7 := by
  induction n with
  | zero => simp [xorPositions]
  | succ n ih =>
    simp only [xorPositions]
    apply Nat.xor_lt_two_pow (ih (by omega))
    split
    · have : n + 1 ≤ 64 := h
      have : (2 : Nat) ^ 7 = 128 := by norm_num
      omega
    · exact Nat.pos_pow_of_pos 7 (by decide)

theorem BitField.get_set_self (f : BitField) (w v : Nat) :
    f.get (f.set w v) = v % 2 ^ f.width := by
  apply Nat.eq_of_testBit_eq
  intro i
  rw [BitField.testBit_get, BitField.testBit_set, Nat.testBit_mod_two_pow]
  by_cases h : i < f.width
  · have h1 : f.off ≤ f.off + i ∧ f.off + i < f.off + f.width := by omega
    simp [h, h1]
  · simp [h]

theorem BitField.get_set_of_disjoint (f g : BitField) (h : f.disjoint g) (w v : Nat) :
    g.get (f.set w v) = g.get w := by
  apply Nat.eq_of_testBit_eq
  intro i
  rw [BitField.testBit_get, BitField.testBit_get, BitField.testBit_set]
  by_cases hi : i < g.width
  · have h1 : ¬ (f.off ≤ g.off + i ∧ g.off + i < f.off + f.width) := by
      unfold BitField.disjoint at h; omega
    simp [h1]
  · simp [hi]

theorem BitField.set_set (f : BitField) (w a b : Nat) :
    f.set (f.set w a) b = f.set w b := by
  apply Nat.eq_of_testBit_eq
  intro i
  simp only [BitField.testBit_set]
  split <;> rfl

theorem BitField.set_get (f : BitField) (w : Nat) : f.set w (f.get w) = w := by
  apply Nat.eq_of_testBit_eq
  intro i
  rw [BitField.testBit_set, BitField.testBit_get]
  split
  · next h =>
    have h1 : i - f.off < f.width := by omega
    have h2 : f.off + (i - f.off) = i := by omega
    simp [h1, h2]
  · rfl

theorem BitField.set_xor_two_pow (f : BitField) (w v p : Nat) (h : ¬ f.covers p) :
    f.set (w ^^^ 2 ^ p) v = f.set w v ^^^ 2 ^ p := by
  apply Nat.eq_of_testBit_eq
  intro i
  simp only [BitField.testBit_set, Nat.testBit_xor, Nat.testBit_two_pow]
  split
  · next hi =>
    have : ¬ p = i := by
      intro hp; subst hp; exact h hi
    simp [this]
  · rfl

theorem BitField.get_xor_two_pow (f : BitField) (w p : Nat) (h : ¬ f.covers p) :
    f.get (w ^^^ 2 ^ p) = f.get w := by
  apply Nat.eq_of_testBit_eq
  intro i
  simp only [BitField.testBit_get, Nat.testBit_xor, Nat.testBit_two_pow]
  by_cases hi : i < f.width
  · have : ¬ p = f.off + i := by
      intro hp; apply h; unfold BitField.covers; omega
    simp [this]
  · simp [hi]

theorem BitField.set_lt (f : BitField) (w v : Nat) (hf : f.fits) (hw : w < 2 ^ 64) :
    f.set w v < 2 ^ 64 := by
  apply Nat.lt_pow_two_of_testBit
  intro i hi
  rw [BitField.testBit_set]
  have : ¬ (f.off ≤ i ∧ i < f.off + f.width) := by
    unfold BitField.fits at hf; omega
  rw [if_neg this]
  exact Nat.testBit_lt_two_pow (lt_of_lt_of_le hw (Nat.pow_le_pow_right (by decide) hi))

theorem flip_byte_bit (t e : Nat) :
    setByte t (e / 8) (asByte t (e / 8) ^^^ (1 <<< (e &&& 7))) = t ^^^ 2 ^ e := by
  have h7 : e &&& 7 = e % 8 := Nat.and_pow_two_sub_one_eq_mod e 3
  rw [h7, Nat.one_shiftLeft]
  apply Nat.eq_of_testBit_eq
  intro i
  simp only [setByte, BitField.testBit_set, Nat.testBit_xor, testBit_asByte,
    Nat.testBit_two_pow]
  split
  · next hi =>
    have h1 : i - 8 * (e / 8) < 8 := by omega
    have h2 : 8 * (e / 8) + (i - 8 * (e / 8)) = i := by omega
    have h3 : (e % 8 = i - 8 * (e / 8)) ↔ (e = i) := by omega
    simp [h1, h2, h3]
  · next hi =>
    have : ¬ e = i := by omega
    simp [this]

/-! ## The code computation in closed form -/

theorem yaffs_calc_tags_ecc_eq (L : TagsLayout) (w : Nat) :
    yaffs_calc_tags_ecc L w = L.ecc.set w (xorPositions (L.ecc.set w 0) 64) := by
  show L.ecc.set (L.ecc.set w 0) (tags_ecc_acc (L.ecc.set w 0)) = _
  rw [tags_ecc_acc_eq, BitField.set_set]

theorem calc_set_ecc (L : TagsLayout) (w v : Nat) :
    yaffs_calc_tags_ecc L (L.ecc.set w v) = yaffs_calc_tags_ecc L w := by
  simp only [yaffs_calc_tags_ecc_eq, BitField.set_set]

theorem calc_idem (L : TagsLayout) (w : Nat) :
    yaffs_calc_tags_ecc L (yaffs_calc_tags_ecc L w) = yaffs_calc_tags_ecc L w := by
  rw [yaffs_calc_tags_ecc_eq L w, calc_set_ecc, yaffs_calc_tags_ecc_eq]

theorem mod_two_pow_of_lt_128 (x n : Nat) (hx : x < 2 ^ 7) (hn : 7 ≤ n) : x % 2 ^ n = x :=
  Nat.mod_eq_of_lt (lt_of_lt_of_le hx (Nat.pow_le_pow_right (by decide) hn))

theorem get_ecc_calc (L : TagsLayout) (w : Nat) (h : 7 ≤ L.ecc.width) :
    L.ecc.get (yaffs_calc_tags_ecc L w) = xorPositions (L.ecc.set w 0) 64 := by
  rw [yaffs_calc_tags_ecc_eq, BitField.get_set_self]
  exact mod_two_pow_of_lt_128 _ _ (xorPositions_lt _ 64 (le_refl 64)) h

theorem get_calc_of_disjoint (L : TagsLayout) (g : BitField) (h : L.ecc.disjoint g) (w : Nat) :
    g.get (yaffs_calc_tags_ecc L w) = g.get w := by
  rw [yaffs_calc_tags_ecc_eq, BitField.get_set_of_disjoint _ _ h]

theorem calc_lt (L : TagsLayout) (w : Nat) (hf : L.ecc.fits) (hw : w < 2 ^ 64) :
    yaffs_calc_tags_ecc L w < 2 ^ 64 := by
  rw [yaffs_calc_tags_ecc_eq]
  exact BitField.set_lt _ _ _ hf hw

theorem calc_xor_two_pow (L : TagsLayout) (w p : Nat) (hp : p < 64) (h : ¬ L.ecc.covers p) :
    yaffs_calc_tags_ecc L (w ^^^ 2 ^ p) =
      L.ecc.set (w ^^^ 2 ^ p) (xorPositions (L.ecc.set w 0) 64 ^^^ (p + 1)) := by
  have h0 : L.ecc.set (w ^^^ 2 ^ p) 0 = L.ecc.set w 0 ^^^ 2 ^ p :=
    BitField.set_xor_two_pow _ _ _ _ h
  rw [yaffs_calc_tags_ecc_eq, h0, xorPositions_flip, if_pos hp]

theorem set_of_set_xor (f : BitField) (w a v p : Nat) (h : ¬ f.covers p) :
    f.set (f.set w a ^^^ 2 ^ p) v = f.set (w ^^^ 2 ^ p) v := by
  rw [BitField.set_xor_two_pow _ _ _ _ h, BitField.set_set,
    ← BitField.set_xor_two_pow _ _ _ _ h]

theorem flipBit_eq (w p : Nat) : flipBit w p = w ^^^ 2 ^ p := by
  have h := flip_byte_bit w p
  have h7 : p &&& 7 = p % 8 := Nat.and_pow_two_sub_one_eq_mod p 3
  rw [h7, Nat.one_shiftLeft] at h
  exact h

theorem xor_two_pow_lt (w p : Nat) (hw : w < 2 ^ 64) (hp : p < 64) : w ^^^ 2 ^ p < 2 ^ 64 :=
  Nat.xor_lt_two_pow hw (Nat.pow_lt_pow_right (by decide) hp)

theorem xor_cancel_left (a b : Nat) : a ^^^ (a ^^^ b) = b := by
  rw [← Nat.xor_assoc, Nat.xor_self, Nat.zero_xor]

theorem xor_two_pow_twice (w p : Nat) : w ^^^ 2 ^ p ^^^ 2 ^ p = w := by
  rw [Nat.xor_assoc, Nat.xor_self, Nat.xor_zero]

/-- The check on a record whose stored code differs from the recomputed one by
`p + 1`, for a bit `p` outside the code field: bit `p` is flipped and the code
recomputed. -/
theorem check_of_data_flip (L : TagsLayout) (w p : Nat) (hw : 7 ≤ L.ecc.width) (hp : p < 64)
    (h : ¬ L.ecc.covers p) :
    yaffs_check_tags_ecc L (yaffs_calc_tags_ecc L w ^^^ 2 ^ p) = (yaffs_calc_tags_ecc L w, 1) := by
  have hE : xorPositions (L.ecc.set w 0) 64 < 2 ^ 7 := xorPositions_lt _ 64 (le_refl 64)
  have hstored : L.ecc.get (yaffs_calc_tags_ecc L w ^^^ 2 ^ p) =
      xorPositions (L.ecc.set w 0) 64 := by
    rw [BitField.get_xor_two_pow _ _ _ h, get_ecc_calc L w hw]
  have hcalc : yaffs_calc_tags_ecc L (yaffs_calc_tags_ecc L w ^^^ 2 ^ p) =
      L.ecc.set (w ^^^ 2 ^ p) (xorPositions (L.ecc.set w 0) 64 ^^^ (p + 1)) := by
    rw [calc_xor_two_pow L _ p hp h, yaffs_calc_tags_ecc_eq L w, BitField.set_set,
      set_of_set_xor _ _ _ _ _ h]
  have hp1 : p + 1 < 2 ^ 7 := by
    have : (2 : Nat) ^ 7 = 128 := by norm_num
    omega
  have hfresh : L.ecc.get (yaffs_calc_tags_ecc L (yaffs_calc_tags_ecc L w ^^^ 2 ^ p)) =
      xorPositions (L.ecc.set w 0) 64 ^^^ (p + 1) := by
    rw [hcalc, BitField.get_set_self]
    exact mod_two_pow_of_lt_128 _ _ (Nat.xor_lt_two_pow hE hp1) hw
  have hsyn : L.ecc.get (yaffs_calc_tags_ecc L w ^^^ 2 ^ p) ^^^
      L.ecc.get (yaffs_calc_tags_ecc L (yaffs_calc_tags_ecc L w ^^^ 2 ^ p)) = p + 1 := by
    rw [hstored, hfresh, xor_cancel_left]
  unfold yaffs_check_tags_ecc
  simp only [hsyn]
  have hc : p + 1 ≠ 0 ∧ p + 1 ≤ 64 := ⟨by omega, by omega⟩
  rw [if_pos hc, Nat.add_sub_cancel, flip_byte_bit, hcalc,
    BitField.set_xor_two_pow _ _ _ _ h, xor_two_pow_twice, calc_set_ecc]

/-! ## Tag bytes in the spare -/

theorem testBit_255 (k : Nat) : (255 : Nat).testBit k = decide (k < 8) := by
  have h : (255 : Nat) = 2 ^ 8 - 1 := by norm_num
  rw [h, Nat.testBit_two_pow_sub_one]

theorem tags_from_store (s : yaffs_Spare) (w junk : Nat) (hw : w < 2 ^ 64)
    (hj : junk < 2 ^ 64) : tags_from_spare_bytes (store_tag_bytes s w) junk = w := by
  apply Nat.eq_of_testBit_eq
  intro i
  simp only [tags_from_spare_bytes, store_tag_bytes, setByte, BitField.testBit_set,
    testBit_asByte]
  by_cases hi : i < 64
  · repeat' split
    all_goals first
      | (have h1 : decide (i - 8 * 7 < 8) = true := by simp; omega
         have h2 : 8 * 7 + (i - 8 * 7) = i := by omega
         rw [h1, h2]; rfl)
      | (have h1 : decide (i - 8 * 6 < 8) = true := by simp; omega
         have h2 : 8 * 6 + (i - 8 * 6) = i := by omega
         rw [h1, h2]; rfl)
      | (have h1 : decide (i - 8 * 5 < 8) = true := by simp; omega
         have h2 : 8 * 5 + (i - 8 * 5) = i := by omega
         rw [h1, h2]; rfl)
      | (have h1 : decide (i - 8 * 4 < 8) = true := by simp; omega
         have h2 : 8 * 4 + (i - 8 * 4) = i := by omega
         rw [h1, h2]; rfl)
      | (have h1 : decide (i - 8 * 3 < 8) = true := by simp; omega
         have h2 : 8 * 3 + (i - 8 * 3) = i := by omega
         rw [h1, h2]; rfl)
      | (have h1 : decide (i - 8 * 2 < 8) = true := by simp; omega
         have h2 : 8 * 2 + (i - 8 * 2) = i := by omega
         rw [h1, h2]; rfl)
      | (have h1 : decide (i - 8 * 1 < 8) = true := by simp; omega
         have h2 : 8 * 1 + (i - 8 * 1) = i := by omega
         rw [h1, h2]; rfl)
      | (have h1 : decide (i - 8 * 0 < 8) = true := by simp; omega
         have h2 : 8 * 0 + (i - 8 * 0) = i := by omega
         rw [h1, h2]; rfl)
      | omega
  · have hi2 : 64 ≤ i := by omega
    have hwi : w.testBit i = false :=
      Nat.testBit_lt_two_pow (lt_of_lt_of_le hw (Nat.pow_le_pow_right (by decide) hi2))
    have hji : junk.testBit i = false :=
      Nat.testBit_lt_two_pow (lt_of_lt_of_le hj (Nat.pow_le_pow_right (by decide) hi2))
    repeat' split
    all_goals first
      | omega
      | (rw [hwi, hji])

theorem asByte_xor_two_pow (w p k : Nat) :
    asByte (w ^^^ 2 ^ p) k = if k = p / 8 then asByte w k ^^^ 2 ^ (p % 8) else asByte w k := by
  apply Nat.eq_of_testBit_eq
  intro i
  split
  · next hk =>
    subst hk
    simp only [testBit_asByte, Nat.testBit_xor, Nat.testBit_two_pow]
    by_cases hi : i < 8
    · have : (p = 8 * (p / 8) + i) ↔ (p % 8 = i) := by omega
      simp [hi, this]
    · have : ¬ p % 8 = i := by omega
      simp [hi, this]
  · next hk =>
    simp only [testBit_asByte, Nat.testBit_xor, Nat.testBit_two_pow]
    by_cases hi : i < 8
    · have : ¬ (p = 8 * k + i) := by omega
      simp [this]
    · simp [hi]

theorem flipSpareBit_store (s : yaffs_Spare) (w p : Nat) (hp : p < 64) :
    flipSpareBit (store_tag_bytes s w) p = store_tag_bytes s (w ^^^ 2 ^ p) := by
  have h : p / 8 = 0 ∨ p / 8 = 1 ∨ p / 8 = 2 ∨ p / 8 = 3 ∨ p / 8 = 4 ∨ p / 8 = 5 ∨
      p / 8 = 6 ∨ p / 8 = 7 := by omega
  rcases h with h | h | h | h | h | h | h | h <;>
    simp [flipSpareBit, store_tag_bytes, asByte_xor_two_pow, h]

theorem tags_code_reference_prefix (w n : Nat) :
    (List.range n).foldl
      (fun acc q =>
        if (asByte w (q / 8)).testBit (q % 8) then acc ^^^ (8 * (q / 8) + q % 8 + 1) else acc)
      0 = xorPositions w n := by
  induction n with
  | zero => rfl
  | succ n ih =>
    rw [List.range_succ, List.foldl_append, ih]
    have h1 : n % 8 < 8 := Nat.mod_lt _ (by decide)
    have h2 : 8 * (n / 8) + n % 8 = n := Nat.div_add_mod n 8
    simp only [List.foldl_cons, List.foldl_nil, xorPositions, testBit_asByte, h1, h2,
      decide_True, Bool.true_and, ite_xor_eq]

theorem tags_code_reference_eq (w : Nat) :
    tags_code_reference (asByte w) = xorPositions w 64 :=
  tags_code_reference_prefix w 64

theorem get_xor_two_pow_of_covers (f : BitField) (w p : Nat) (h : f.covers p) :
    f.get (w ^^^ 2 ^ p) = f.get w ^^^ 2 ^ (p - f.off) := by
  apply Nat.eq_of_testBit_eq
  intro i
  simp only [BitField.testBit_get, Nat.testBit_xor, Nat.testBit_two_pow]
  unfold BitField.covers at h
  by_cases hi : i < f.width
  · have : (p = f.off + i) ↔ (p - f.off = i) := by omega
    simp [hi, this]
  · have : ¬ p - f.off = i := by omega
    simp [hi, this]

theorem xor_two_pow_of_covers (f : BitField) (w p : Nat) (h : f.covers p) :
    w ^^^ 2 ^ p = f.set w (f.get w ^^^ 2 ^ (p - f.off)) := by
  apply Nat.eq_of_testBit_eq
  intro i
  simp only [BitField.testBit_set, BitField.testBit_get, Nat.testBit_xor, Nat.testBit_two_pow]
  unfold BitField.covers at h
  split
  · next hi =>
    have h1 : i - f.off < f.width := by omega
    have h2 : f.off + (i - f.off) = i := by omega
    have h3 : (p - f.off = i - f.off) ↔ (p = i) := by omega
    simp [h1, h2, h3]
  · next hi =>
    have : ¬ p = i := by omega
    simp [this]

/-- The check on an encoded record with bit `k` of its code field flipped: the
syndrome is `2 ^ k`. -/
theorem check_of_code_flip (L : TagsLayout) (w p : Nat) (h : L.ecc.covers p) :
    yaffs_check_tags_ecc L (yaffs_calc_tags_ecc L w ^^^ 2 ^ p) =
      if p - L.ecc.off < 7 then
        (yaffs_calc_tags_ecc L (yaffs_calc_tags_ecc L w ^^^ 2 ^ (2 ^ (p - L.ecc.off) - 1)), 1)
      else (yaffs_calc_tags_ecc L w, -1) := by
  have hcalc : yaffs_calc_tags_ecc L (yaffs_calc_tags_ecc L w ^^^ 2 ^ p) =
      yaffs_calc_tags_ecc L w := by
    rw [xor_two_pow_of_covers _ _ _ h, calc_set_ecc, calc_idem]
  have hsyn : L.ecc.get (yaffs_calc_tags_ecc L w ^^^ 2 ^ p) ^^^
      L.ecc.get (yaffs_calc_tags_ecc L w) = 2 ^ (p - L.ecc.off) := by
    rw [get_xor_two_pow_of_covers _ _ _ h, Nat.xor_comm, xor_cancel_left]
  unfold yaffs_check_tags_ecc
  simp only [hcalc, hsyn]
  have hpos : 2 ^ (p - L.ecc.off) ≠ 0 := Nat.pos_iff_ne_zero.mp (Nat.pos_pow_of_pos _ (by decide))
  by_cases hk : p - L.ecc.off < 7
  · have hle : 2 ^ (p - L.ecc.off) ≤ 64 := by
      have : 2 ^ (p - L.ecc.off) ≤ 2 ^ 6 := Nat.pow_le_pow_right (by decide) (by omega)
      simpa using this
    rw [if_pos ⟨hpos, hle⟩, if_pos hk, flip_byte_bit]
  · have hgt : ¬ 2 ^ (p - L.ecc.off) ≤ 64 := by
      have : 2 ^ 7 ≤ 2 ^ (p - L.ecc.off) := Nat.pow_le_pow_right (by decide) (by omega)
      have h128 : (2 : Nat) ^ 7 = 128 := by norm_num
      omega
    have hc : ¬ (2 ^ (p - L.ecc.off) ≠ 0 ∧ 2 ^ (p - L.ecc.off) ≤ 64) := fun hh => hgt hh.2
    rw [if_neg hc, if_pos hpos, if_neg hk]

/-- The decoder's counters follow the result of the check. -/
theorem get_tags_of_check {σ : Type} (L : TagsLayout) (dev : yaffs_Device σ) (s : yaffs_Spare)
    (junk t : Nat) (r : Int) (h : yaffs_check_tags_ecc L (tags_from_spare_bytes s junk) = (t, r)) :
    (yaffs_get_tags_from_spare L dev s junk).2 = t ∧
    (yaffs_get_tags_from_spare L dev s junk).1.tagsEccFixed =
      (if r > 0 then dev.tagsEccFixed + 1 else dev.tagsEccFixed) ∧
    (yaffs_get_tags_from_spare L dev s junk).1.tagsEccUnfixed =
      (if r > 0 then dev.tagsEccUnfixed else if r < 0 then dev.tagsEccUnfixed + 1
        else dev.tagsEccUnfixed) := by
  unfold yaffs_get_tags_from_spare
  simp only [h]
  by_cases h1 : r > 0
  · simp [h1]
  · by_cases h2 : r < 0
    · simp [h1, h2]
    · simp [h1, h2]

theorem check_of_encoded (L : TagsLayout) (w : Nat) :
    yaffs_check_tags_ecc L (yaffs_calc_tags_ecc L w) = (yaffs_calc_tags_ecc L w, 0) := by
  unfold yaffs_check_tags_ecc
  simp only [calc_idem, Nat.xor_self]
  simp


/-- The tag bytes of an encoded spare with bit `p` flipped. -/
theorem flipped_spare_bytes (L : TagsLayout) (spare : yaffs_Spare) (tags junk p : Nat)
    (hlt : yaffs_calc_tags_ecc L tags < 2 ^ 64) (hj : junk < 2 ^ 64) (hp : p < 64) :
    tags_from_spare_bytes (flipSpareBit (yaffs_load_tags_to_spare L spare tags).1 p) junk =
      yaffs_calc_tags_ecc L tags ^^^ 2 ^ p := by
  show tags_from_spare_bytes
    (flipSpareBit (store_tag_bytes spare (yaffs_calc_tags_ecc L tags)) p) junk = _
  rw [flipSpareBit_store _ _ _ hp]
  exact tags_from_store spare _ junk (xor_two_pow_lt _ _ hlt hp) hj

/-- The inner loop leaves by its own test after eight rounds: more fuel changes
nothing. -/
theorem calc_tags_ecc_bits_fuel (bi n : Nat) (st : Nat × Nat) :
    calc_tags_ecc_bits bi (n + 9) 1 st = calc_tags_ecc_bits bi 9 1 st := by
  obtain ⟨ecc, bit⟩ := st
  have e1 : (1 <<< 1) % 2 ^ 32 = 2 := by decide
  have e2 : (2 <<< 1) % 2 ^ 32 = 4 := by decide
  have e3 : (4 <<< 1) % 2 ^ 32 = 8 := by decide
  have e4 : (8 <<< 1) % 2 ^ 32 = 16 := by decide
  have e5 : (16 <<< 1) % 2 ^ 32 = 32 := by decide
  have e6 : (32 <<< 1) % 2 ^ 32 = 64 := by decide
  have e7 : (64 <<< 1) % 2 ^ 32 = 128 := by decide
  have e8 : (128 <<< 1) % 2 ^ 32 = 256 := by decide
  have c0 : (1 &&& 255 : Nat) ≠ 0 := by decide
  have c1 : (2 &&& 255 : Nat) ≠ 0 := by decide
  have c2 : (4 &&& 255 : Nat) ≠ 0 := by decide
  have c3 : (8 &&& 255 : Nat) ≠ 0 := by decide
  have c4 : (16 &&& 255 : Nat) ≠ 0 := by decide
  have c5 : (32 &&& 255 : Nat) ≠ 0 := by decide
  have c6 : (64 &&& 255 : Nat) ≠ 0 := by decide
  have c7 : (128 &&& 255 : Nat) ≠ 0 := by decide
  have c8 : ¬ ((256 &&& 255 : Nat) ≠ 0) := by decide
  simp only [calc_tags_ecc_bits, e1, e2, e3, e4, e5, e6, e7, e8, c0, c1, c2, c3, c4, c5, c6,
    c7, c8, if_true, if_false, ne_eq, not_false_eq_true, not_true_eq_false]

/-- The outer loop leaves by its own test after eight rounds: more fuel changes
nothing. -/
theorem calc_tags_ecc_bytes_fuel (b : Nat → Nat) (n : Nat) (st : Nat × Nat) :
    calc_tags_ecc_bytes b (n + 9) 0 st = calc_tags_ecc_bytes b 9 0 st := by
  simp only [calc_tags_ecc_bytes, Nat.reduceAdd, Nat.reduceLT, if_true, if_false,
    Nat.lt_irrefl]
/-! ## Claims on the tag codec -/

/-- C1. Tag round trip: a record encoded into the spare by
`yaffs_load_tags_to_spare` and decoded from the unaltered spare by
`yaffs_get_tags_from_spare` comes back equal to the encoded record in all 8
bytes (so in every field, the code included), its non-code fields are those of
the record given to the encoder, the check returns 0, and neither tag-ECC
counter changes. -/
theorem tags_round_trip {σ : Type} (L : TagsLayout) (dev : yaffs_Device σ)
    (spare : yaffs_Spare) (tags junk : Nat) (hL : L.WF) (ht : tags < 2 ^ 64)
    (hj : junk < 2 ^ 64) :
    (yaffs_get_tags_from_spare L dev (yaffs_load_tags_to_spare L spare tags).1 junk).2 =
        (yaffs_load_tags_to_spare L spare tags).2 ∧
      (L.objectId.get (yaffs_load_tags_to_spare L spare tags).2 = L.objectId.get tags ∧
        L.chunkId.get (yaffs_load_tags_to_spare L spare tags).2 = L.chunkId.get tags ∧
        L.byteCountLSB.get (yaffs_load_tags_to_spare L spare tags).2 =
          L.byteCountLSB.get tags ∧
        L.byteCountMSB.get (yaffs_load_tags_to_spare L spare tags).2 =
          L.byteCountMSB.get tags ∧
        L.serialNumber.get (yaffs_load_tags_to_spare L spare tags).2 =
          L.serialNumber.get tags) ∧
      (yaffs_check_tags_ecc L
        (tags_from_spare_bytes (yaffs_load_tags_to_spare L spare tags).1 junk)).2 = 0 ∧
      (yaffs_get_tags_from_spare L dev
        (yaffs_load_tags_to_spare L spare tags).1 junk).1.tagsEccFixed = dev.tagsEccFixed ∧
      (yaffs_get_tags_from_spare L dev
        (yaffs_load_tags_to_spare L spare tags).1 junk).1.tagsEccUnfixed =
          dev.tagsEccUnfixed := by
  obtain ⟨⟨_, _, _, _, hfit, _⟩, ⟨d1, d2, d3, d4, d5⟩, _⟩ := hL
  have hlt := calc_lt L tags hfit ht
  have hbytes : tags_from_spare_bytes (yaffs_load_tags_to_spare L spare tags).1 junk =
      yaffs_calc_tags_ecc L tags := tags_from_store spare _ junk hlt hj
  have hchk : yaffs_check_tags_ecc L
      (tags_from_spare_bytes (yaffs_load_tags_to_spare L spare tags).1 junk) =
      (yaffs_calc_tags_ecc L tags, 0) := by
    rw [hbytes, check_of_encoded]
  obtain ⟨g1, g2, g3⟩ := get_tags_of_check L dev _ junk _ _ hchk
  refine ⟨g1, ⟨?_, ?_, ?_, ?_, ?_⟩, ?_, ?_, ?_⟩
  · exact get_calc_of_disjoint L _ d4 tags
  · exact get_calc_of_disjoint L _ d1 tags
  · exact get_calc_of_disjoint L _ d3 tags
  · exact get_calc_of_disjoint L _ d5 tags
  · exact get_calc_of_disjoint L _ d2 tags
  · rw [hchk]
  · simpa using g2
  · simpa using g3

/-- Witness of C1 on the declared layout, for the record with objectId 42,
chunkId 7, byteCount 513 and serialNumber 3. -/
theorem tags_round_trip_witness :
    yaffs_guts_layout.WF ∧ 182543450119 < 2 ^ 64 ∧ 0 < 2 ^ 64 ∧
    ((yaffs_get_tags_from_spare yaffs_guts_layout ramDevice
        (yaffs_load_tags_to_spare yaffs_guts_layout yaffs_spare_init 182543450119).1 0).2 =
        (yaffs_load_tags_to_spare yaffs_guts_layout yaffs_spare_init 182543450119).2 ∧
      (yaffs_check_tags_ecc yaffs_guts_layout
        (tags_from_spare_bytes
          (yaffs_load_tags_to_spare yaffs_guts_layout yaffs_spare_init 182543450119).1
          0)).2 = 0) :=
  ⟨by decide, by decide, by decide,
    (tags_round_trip yaffs_guts_layout ramDevice yaffs_spare_init 182543450119 0
      (by decide) (by decide) (by decide)).1,
    (tags_round_trip yaffs_guts_layout ramDevice yaffs_spare_init 182543450119 0
      (by decide) (by decide) (by decide)).2.2.1⟩

/-- What the decoder does with an encoded record in which one bit of the code
field itself was flipped (code bit `k = p - off`): the syndrome is `2 ^ k`.  For
`k >= 7` the check returns -1, the record comes back as encoded and
`tagsEccUnfixed` grows by one; for `k <= 6` the check returns 1 after flipping
bit `2 ^ k - 1` of the record. -/
theorem code_bit_flip_decode {σ : Type} (L : TagsLayout) (dev : yaffs_Device σ)
    (spare : yaffs_Spare) (tags junk p : Nat) (hL : L.WF) (ht : tags < 2 ^ 64)
    (hj : junk < 2 ^ 64) (hp : p < 64) (hin : L.ecc.covers p) :
    (7 ≤ p - L.ecc.off →
      (yaffs_get_tags_from_spare L dev
          (flipSpareBit (yaffs_load_tags_to_spare L spare tags).1 p) junk).2 =
        (yaffs_load_tags_to_spare L spare tags).2 ∧
      (yaffs_check_tags_ecc L (tags_from_spare_bytes
          (flipSpareBit (yaffs_load_tags_to_spare L spare tags).1 p) junk)).2 = -1 ∧
      (yaffs_get_tags_from_spare L dev
          (flipSpareBit (yaffs_load_tags_to_spare L spare tags).1 p) junk).1.tagsEccFixed =
        dev.tagsEccFixed ∧
      (yaffs_get_tags_from_spare L dev
          (flipSpareBit (yaffs_load_tags_to_spare L spare tags).1 p) junk).1.tagsEccUnfixed =
        dev.tagsEccUnfixed + 1) ∧
    (p - L.ecc.off < 7 →
      (yaffs_get_tags_from_spare L dev
          (flipSpareBit (yaffs_load_tags_to_spare L spare tags).1 p) junk).2 =
        yaffs_calc_tags_ecc L
          (flipBit (yaffs_load_tags_to_spare L spare tags).2 (2 ^ (p - L.ecc.off) - 1)) ∧
      (yaffs_check_tags_ecc L (tags_from_spare_bytes
          (flipSpareBit (yaffs_load_tags_to_spare L spare tags).1 p) junk)).2 = 1 ∧
      (yaffs_get_tags_from_spare L dev
          (flipSpareBit (yaffs_load_tags_to_spare L spare tags).1 p) junk).1.tagsEccFixed =
        dev.tagsEccFixed + 1) := by
  have hlt := calc_lt L tags hL.1.2.2.2.2.1 ht
  have hbytes := flipped_spare_bytes L spare tags junk p hlt hj hp
  refine ⟨fun hk => ?_, fun hk => ?_⟩
  · have hchk := check_of_code_flip L tags p hin
    rw [if_neg (by omega), ← hbytes] at hchk
    obtain ⟨g1, g2, g3⟩ := get_tags_of_check L dev _ junk _ _ hchk
    refine ⟨g1, by rw [hchk], by simpa using g2, by simpa using g3⟩
  · have hchk := check_of_code_flip L tags p hin
    rw [if_pos hk, ← hbytes, ← flipBit_eq] at hchk
    obtain ⟨g1, g2, _⟩ := get_tags_of_check L dev _ junk _ _ hchk
    refine ⟨g1, by rw [hchk], by simpa using g2⟩

/-- C3. Single data-bit correction: on a record whose code was computed by
`yaffs_calc_tags_ecc`, flipping bit `p` (bit `p % 8` of byte `p / 8`) outside the
code field makes the syndrome, stored code XOR recomputed code, equal to
`p + 1`; `yaffs_check_tags_ecc` then flips bit `p` back, recomputes the code,
returns 1, and the record is again the original in all 8 bytes. -/
theorem single_data_bit_correction (L : TagsLayout) (tags p : Nat) (hL : L.WF)
    (hp : p < 64) (hout : ¬ L.ecc.covers p) :
    L.ecc.get (flipBit (yaffs_calc_tags_ecc L tags) p) ^^^
        L.ecc.get (yaffs_calc_tags_ecc L (flipBit (yaffs_calc_tags_ecc L tags) p)) = p + 1 ∧
      yaffs_check_tags_ecc L (flipBit (yaffs_calc_tags_ecc L tags) p) =
        (yaffs_calc_tags_ecc L
          (flipBit (yaffs_calc_tags_ecc L (flipBit (yaffs_calc_tags_ecc L tags) p)) p), 1) ∧
      yaffs_check_tags_ecc L (flipBit (yaffs_calc_tags_ecc L tags) p) =
        (yaffs_calc_tags_ecc L tags, 1) := by
  have h7 : 7 ≤ L.ecc.width := hL.2.2.2.2.2.2.2
  have hE : xorPositions (L.ecc.set tags 0) 64 < 2 ^ 7 := xorPositions_lt _ 64 (le_refl 64)
  have hp1 : p + 1 < 2 ^ 7 := by
    have : (2 : Nat) ^ 7 = 128 := by norm_num
    omega
  have hchk := check_of_data_flip L tags p h7 hp hout
  have hcalc : yaffs_calc_tags_ecc L (yaffs_calc_tags_ecc L tags ^^^ 2 ^ p) =
      L.ecc.set (tags ^^^ 2 ^ p) (xorPositions (L.ecc.set tags 0) 64 ^^^ (p + 1)) := by
    rw [calc_xor_two_pow L _ p hp hout, yaffs_calc_tags_ecc_eq L tags, BitField.set_set,
      set_of_set_xor _ _ _ _ _ hout]
  simp only [flipBit_eq]
  refine ⟨?_, ?_, hchk⟩
  · rw [BitField.get_xor_two_pow _ _ _ hout, get_ecc_calc L tags h7, hcalc,
      BitField.get_set_self, mod_two_pow_of_lt_128 _ _ (Nat.xor_lt_two_pow hE hp1) h7,
      xor_cancel_left]
  · rw [hchk, hcalc, BitField.set_xor_two_pow _ _ _ _ hout, xor_two_pow_twice, calc_set_ecc]

/-- Witness of C3: bit 40 (an objectId bit) of the encoded sample record. -/
theorem single_data_bit_correction_witness :
    yaffs_guts_layout.WF ∧ 40 < 64 ∧ ¬ yaffs_guts_layout.ecc.covers 40 ∧
    yaffs_check_tags_ecc yaffs_guts_layout
        (flipBit (yaffs_calc_tags_ecc yaffs_guts_layout 182543450119) 40) =
      (yaffs_calc_tags_ecc yaffs_guts_layout 182543450119, 1) :=
  ⟨by decide, by decide, by decide,
    (single_data_bit_correction yaffs_guts_layout 182543450119 40
      (by decide) (by decide) (by decide)).2.2⟩

/-- C4. Reference definition of the tag code: the accumulator of
`yaffs_calc_tags_ecc` is the XOR of the 1-indexed positions
`8 * byteIndex + bitIndex + 1` of the set bits of the record with its code field
zeroed; the code field holds exactly that value afterwards (nothing is lost in
the bitfield); the result does not depend on the previous content of the code
field, and the function is idempotent. -/
theorem calc_tags_ecc_is_reference (L : TagsLayout) (tags : Nat) (h7 : 7 ≤ L.ecc.width) :
    tags_ecc_acc (L.ecc.set tags 0) = tags_code_reference (asByte (L.ecc.set tags 0)) ∧
      L.ecc.get (yaffs_calc_tags_ecc L tags) =
        tags_code_reference (asByte (L.ecc.set tags 0)) ∧
      (∀ v, yaffs_calc_tags_ecc L (L.ecc.set tags v) = yaffs_calc_tags_ecc L tags) ∧
      yaffs_calc_tags_ecc L (yaffs_calc_tags_ecc L tags) = yaffs_calc_tags_ecc L tags := by
  refine ⟨?_, ?_, fun v => calc_set_ecc L tags v, calc_idem L tags⟩
  · rw [tags_ecc_acc_eq, tags_code_reference_eq]
  · rw [get_ecc_calc L tags h7, tags_code_reference_eq]

/-- Witness of C4 on the declared layout and the sample record. -/
theorem calc_tags_ecc_is_reference_witness :
    7 ≤ yaffs_guts_layout.ecc.width ∧
    yaffs_guts_layout.ecc.get (yaffs_calc_tags_ecc yaffs_guts_layout 182543450119) =
      tags_code_reference (asByte (yaffs_guts_layout.ecc.set 182543450119 0)) :=
  ⟨by decide, (calc_tags_ecc_is_reference yaffs_guts_layout 182543450119 (by decide)).2.1⟩

/-- C5 (as amended). The code `yaffs_calc_tags_ecc` stores lies in 0..127, on
every layout; on the declared layout 127 is reached (byteCountMSB = 3, the bits
at positions 63 and 64). -/
theorem calc_tags_ecc_range :
    (∀ (L : TagsLayout) (tags : Nat), L.ecc.get (yaffs_calc_tags_ecc L tags) ≤ 127) ∧
      yaffs_guts_layout.ecc.get (yaffs_calc_tags_ecc yaffs_guts_layout (3 * 2 ^ 62)) = 127 := by
  refine ⟨fun L tags => ?_, by decide⟩
  rw [yaffs_calc_tags_ecc_eq, BitField.get_set_self]
  have h1 : xorPositions (L.ecc.set tags 0) 64 < 2 ^ 7 := xorPositions_lt _ 64 (le_refl 64)
  have h2 := Nat.mod_le (xorPositions (L.ecc.set tags 0) 64) (2 ^ L.ecc.width)
  have h3 : (2 : Nat) ^ 7 = 128 := by norm_num
  omega

/-- Counterexample to C5 as stated: on the declared layout the record with
chunkId 1 and byteCountMSB 2 (bits at positions 1 and 64) gets the code 65. -/
theorem calc_tags_ecc_exceeds_64 :
    yaffs_guts_layout.chunkId.get (2 ^ 63 + 1) = 1 ∧
    yaffs_guts_layout.byteCountMSB.get (2 ^ 63 + 1) = 2 ∧
    yaffs_guts_layout.ecc.get (yaffs_calc_tags_ecc yaffs_guts_layout (2 ^ 63 + 1)) = 65 ∧
    ¬ yaffs_guts_layout.ecc.get (yaffs_calc_tags_ecc yaffs_guts_layout (2 ^ 63 + 1)) ≤ 64 := by
  decide

/-- C6. Unrecoverable branch: when the syndrome (stored code XOR the code
recomputed with the code field zeroed) is non-zero and above 64,
`yaffs_check_tags_ecc` returns -1; the record it leaves is the entry record with
only the code field rewritten: every bit outside the code field, and so
objectId, chunkId, byteCountLSB, byteCountMSB and serialNumber, is as on
entry. -/
theorem unrecoverable_branch (L : TagsLayout) (tags : Nat) (hL : L.WF)
    (hne : L.ecc.get tags ^^^ L.ecc.get (yaffs_calc_tags_ecc L tags) ≠ 0)
    (hgt : 64 < L.ecc.get tags ^^^ L.ecc.get (yaffs_calc_tags_ecc L tags)) :
    (yaffs_check_tags_ecc L tags).2 = -1 ∧
      (yaffs_check_tags_ecc L tags).1 = yaffs_calc_tags_ecc L tags ∧
      (∀ i, ¬ L.ecc.covers i →
        ((yaffs_check_tags_ecc L tags).1).testBit i = tags.testBit i) ∧
      L.objectId.get (yaffs_check_tags_ecc L tags).1 = L.objectId.get tags ∧
      L.chunkId.get (yaffs_check_tags_ecc L tags).1 = L.chunkId.get tags ∧
      L.byteCountLSB.get (yaffs_check_tags_ecc L tags).1 = L.byteCountLSB.get tags ∧
      L.byteCountMSB.get (yaffs_check_tags_ecc L tags).1 = L.byteCountMSB.get tags ∧
      L.serialNumber.get (yaffs_check_tags_ecc L tags).1 = L.serialNumber.get tags := by
  obtain ⟨_, ⟨d1, d2, d3, d4, d5⟩, _⟩ := hL
  have hc : ¬ (L.ecc.get tags ^^^ L.ecc.get (yaffs_calc_tags_ecc L tags) ≠ 0 ∧
      L.ecc.get tags ^^^ L.ecc.get (yaffs_calc_tags_ecc L tags) ≤ 64) := by
    intro hh; omega
  have hchk : yaffs_check_tags_ecc L tags = (yaffs_calc_tags_ecc L tags, -1) := by
    unfold yaffs_check_tags_ecc
    simp only [if_neg hc, if_pos hne]
  rw [hchk]
  refine ⟨rfl, rfl, fun i hi => ?_, get_calc_of_disjoint L _ d4 tags,
    get_calc_of_disjoint L _ d1 tags, get_calc_of_disjoint L _ d3 tags,
    get_calc_of_disjoint L _ d5 tags, get_calc_of_disjoint L _ d2 tags⟩
  show (yaffs_calc_tags_ecc L tags).testBit i = tags.testBit i
  rw [yaffs_calc_tags_ecc_eq, BitField.testBit_set]
  exact if_neg hi

/-- Witness of C6: on the declared layout, the record that is zero but for bit 7
of its code field (stored code 128, recomputed code 0). -/
theorem unrecoverable_branch_witness :
    yaffs_guts_layout.WF ∧
    yaffs_guts_layout.ecc.get (2 ^ 57) ^^^
      yaffs_guts_layout.ecc.get (yaffs_calc_tags_ecc yaffs_guts_layout (2 ^ 57)) ≠ 0 ∧
    64 < yaffs_guts_layout.ecc.get (2 ^ 57) ^^^
      yaffs_guts_layout.ecc.get (yaffs_calc_tags_ecc yaffs_guts_layout (2 ^ 57)) ∧
    (yaffs_check_tags_ecc yaffs_guts_layout (2 ^ 57)).2 = -1 :=
  ⟨by decide, by decide, by decide,
    (unrecoverable_branch yaffs_guts_layout (2 ^ 57) (by decide) (by decide) (by decide)).1⟩

/-! ## Building and reading the extended tags -/

theorem BitField.disjoint_symm {f g : BitField} (h : f.disjoint g) : g.disjoint f := by
  unfold BitField.disjoint at *; omega

theorem BitField.get_lt (f : BitField) (w : Nat) : f.get w < 2 ^ f.width :=
  Nat.mod_lt _ (Nat.pos_pow_of_pos _ (by decide))

theorem BitField.zero_lt_two_pow : (0 : Nat) < 2 ^ 64 := Nat.pos_pow_of_pos _ (by decide)

theorem tags_of_extended_lt {σ : Type} (L : TagsLayout) (dev : yaffs_Device σ)
    (e : yaffs_ExtendedTags) (hL : L.WF) : tags_of_extended L dev e < 2 ^ 64 := by
  obtain ⟨⟨f1, f2, f3, f4, _, f6⟩, _⟩ := hL
  unfold tags_of_extended
  apply BitField.set_lt _ _ _ f2
  split
  · exact BitField.set_lt _ _ _ f6 (BitField.set_lt _ _ _ f3 (BitField.set_lt _ _ _ f1
      (BitField.set_lt _ _ _ f4 BitField.zero_lt_two_pow)))
  · exact BitField.set_lt _ _ _ f6 (BitField.set_lt _ _ _ f3 (BitField.set_lt _ _ _ f1
      (BitField.set_lt _ _ _ f4 BitField.zero_lt_two_pow)))

theorem tags_of_extended_objectId {σ : Type} (L : TagsLayout) (dev : yaffs_Device σ)
    (e : yaffs_ExtendedTags) (hL : L.WF) :
    L.objectId.get (tags_of_extended L dev e) = e.objectId % 2 ^ L.objectId.width := by
  obtain ⟨_, _, ⟨_, _, c3, _⟩, ⟨_, s2, _⟩, ⟨l1, _, o1⟩, _⟩ := hL
  unfold tags_of_extended
  rw [BitField.get_set_of_disjoint _ _ s2]
  split
  · rw [BitField.get_set_of_disjoint _ _ (BitField.disjoint_symm o1),
      BitField.get_set_of_disjoint _ _ l1, BitField.get_set_of_disjoint _ _ c3,
      BitField.get_set_self]
  · rw [BitField.get_set_of_disjoint _ _ (BitField.disjoint_symm o1),
      BitField.get_set_of_disjoint _ _ l1, BitField.get_set_of_disjoint _ _ c3,
      BitField.get_set_self]

theorem tags_of_extended_chunkId {σ : Type} (L : TagsLayout) (dev : yaffs_Device σ)
    (e : yaffs_ExtendedTags) (hL : L.WF) :
    L.chunkId.get (tags_of_extended L dev e) = e.chunkId % 2 ^ L.chunkId.width := by
  obtain ⟨_, _, ⟨c1, c2, _, c4⟩, _, _⟩ := hL
  unfold tags_of_extended
  rw [BitField.get_set_of_disjoint _ _ (BitField.disjoint_symm c1)]
  split
  · rw [BitField.get_set_of_disjoint _ _ (BitField.disjoint_symm c4),
      BitField.get_set_of_disjoint _ _ (BitField.disjoint_symm c2), BitField.get_set_self]
  · rw [BitField.get_set_of_disjoint _ _ (BitField.disjoint_symm c4),
      BitField.get_set_of_disjoint _ _ (BitField.disjoint_symm c2), BitField.get_set_self]

theorem tags_of_extended_serialNumber {σ : Type} (L : TagsLayout) (dev : yaffs_Device σ)
    (e : yaffs_ExtendedTags) :
    L.serialNumber.get (tags_of_extended L dev e) =
      e.serialNumber % 2 ^ L.serialNumber.width := by
  unfold tags_of_extended
  rw [BitField.get_set_self]

theorem and_0x3ff (bc : Nat) : bc &&& 0x3ff = bc % 1024 :=
  Nat.and_pow_two_sub_one_eq_mod bc 10

theorem shift10_and_3 (bc : Nat) : (bc >>> 10) &&& 3 = bc / 1024 % 4 := by
  rw [Nat.shiftRight_eq_div_pow]
  exact Nat.and_pow_two_sub_one_eq_mod _ 2

theorem tags_of_extended_byteCountLSB {σ : Type} (L : TagsLayout) (dev : yaffs_Device σ)
    (e : yaffs_ExtendedTags) (hL : L.WF) :
    L.byteCountLSB.get (tags_of_extended L dev e) = e.byteCount % 1024 := by
  obtain ⟨_, _, _, ⟨s1, _, _⟩, ⟨_, l2, _⟩, hw, _⟩ := hL
  unfold tags_of_extended
  rw [BitField.get_set_of_disjoint _ _ s1]
  have h : (e.byteCount &&& 0x3ff) % 2 ^ L.byteCountLSB.width = e.byteCount % 1024 := by
    rw [hw, and_0x3ff]
    norm_num
  split
  · rw [BitField.get_set_of_disjoint _ _ (BitField.disjoint_symm l2), BitField.get_set_self, h]
  · rw [BitField.get_set_of_disjoint _ _ (BitField.disjoint_symm l2), BitField.get_set_self, h]

theorem tags_of_extended_byteCountMSB {σ : Type} (L : TagsLayout) (dev : yaffs_Device σ)
    (e : yaffs_ExtendedTags) (hL : L.WF) :
    L.byteCountMSB.get (tags_of_extended L dev e) =
      if dev.nDataBytesPerChunk ≥ 1024 then e.byteCount / 1024 % 4 else 3 := by
  obtain ⟨_, _, _, ⟨_, _, s3⟩, _, _, hw, _⟩ := hL
  unfold tags_of_extended
  rw [BitField.get_set_of_disjoint _ _ s3]
  split
  · rw [BitField.get_set_self, hw, shift10_and_3]
    norm_num
  · rw [BitField.get_set_self, hw]
    rfl

theorem extended_of_tags_byteCount {σ : Type} (L : TagsLayout) (dev : yaffs_Device σ)
    (t0 : yaffs_ExtendedTags) (tags : Nat) (hL : L.WF) :
    (extended_of_tags L dev t0 tags).byteCount =
      if dev.nDataBytesPerChunk ≥ 1024 then
        L.byteCountLSB.get tags + 1024 * L.byteCountMSB.get tags
      else L.byteCountLSB.get tags := by
  obtain ⟨_, _, _, _, _, hl, hm, _⟩ := hL
  unfold extended_of_tags
  simp only
  split
  · have h1 : L.byteCountLSB.get tags < 2 ^ 10 := by
      have := BitField.get_lt L.byteCountLSB tags
      rwa [hl] at this
    have h2 : L.byteCountMSB.get tags < 2 ^ 2 := by
      have := BitField.get_lt L.byteCountMSB tags
      rwa [hm] at this
    have h3 : (L.byteCountMSB.get tags <<< 10) % 2 ^ 32 = 2 ^ 10 * L.byteCountMSB.get tags := by
      rw [Nat.shiftLeft_eq, Nat.mul_comm]
      apply Nat.mod_eq_of_lt
      norm_num at h2 ⊢
      omega
    rw [h3, Nat.or_comm, ← Nat.mul_add_lt_is_or h1]
    norm_num
    omega
  · rfl

/-- The tag bytes `yaffs_tags_compat_wr` writes for a chunk that is not deleted
are those of the encoded record. -/
theorem compat_wr_spare_tags {σ : Type} (L : TagsLayout) (E : EccLib) (dev : yaffs_Device σ)
    (data : Option (List Nat)) (e : yaffs_ExtendedTags) (hL : L.WF) (hdel : e.chunkDeleted = 0) :
    tags_from_spare_bytes (compat_wr_spare L E dev data e) 0 =
      yaffs_calc_tags_ecc L (tags_of_extended L dev e) := by
  unfold compat_wr_spare
  simp only [hdel, ne_eq, not_true_eq_false, if_false]
  exact tags_from_store _ _ 0 (calc_lt L _ hL.1.2.2.2.2.1 (tags_of_extended_lt L dev e hL))
    BitField.zero_lt_two_pow

theorem count_ecc_result_frame {σ : Type} (dev : yaffs_Device σ) (r : Int) :
    (count_ecc_result dev r).param = dev.param ∧
    (count_ecc_result dev r).nDataBytesPerChunk = dev.nDataBytesPerChunk ∧
    (count_ecc_result dev r).driverContext = dev.driverContext ∧
    (count_ecc_result dev r).blockOffset = dev.blockOffset ∧
    (count_ecc_result dev r).tagsEccFixed = dev.tagsEccFixed ∧
    (count_ecc_result dev r).tagsEccUnfixed = dev.tagsEccUnfixed ∧
    (count_ecc_result dev r).needsRetiring = dev.needsRetiring := by
  unfold count_ecc_result
  split
  · exact ⟨rfl, rfl, rfl, rfl, rfl, rfl, rfl⟩
  · split <;> exact ⟨rfl, rfl, rfl, rfl, rfl, rfl, rfl⟩

theorem rd_chunk_retVal {σ : Type} (E : EccLib) (dev : yaffs_Device σ) (c : Int)
    (data : Bool) (e0 : yaffs_ECCResult) (cor : Int) :
    (yaffs_rd_chunk_nand E dev c data e0 cor).retVal =
      (dev.param.readChunkFromNAND dev.driverContext c data).retVal := by
  unfold yaffs_rd_chunk_nand
  split <;> split <;> rfl

theorem rd_chunk_data_frame {σ : Type} (E : EccLib) (dev : yaffs_Device σ) (c : Int)
    (data : Bool) (e0 : yaffs_ECCResult) (cor : Int) :
    (yaffs_rd_chunk_nand E dev c data e0 cor).dev.param = dev.param ∧
    (yaffs_rd_chunk_nand E dev c data e0 cor).dev.nDataBytesPerChunk =
      dev.nDataBytesPerChunk ∧
    (yaffs_rd_chunk_nand E dev c data e0 cor).dev.driverContext = dev.driverContext ∧
    (yaffs_rd_chunk_nand E dev c data e0 cor).dev.tagsEccFixed = dev.tagsEccFixed ∧
    (yaffs_rd_chunk_nand E dev c data e0 cor).dev.tagsEccUnfixed = dev.tagsEccUnfixed := by
  unfold yaffs_rd_chunk_nand
  split
  · split
    · simp only
      split
      · simp only [yaffs_handle_rd_data_error]
        obtain ⟨a1, a2, a3, _, a5, a6, _⟩ := count_ecc_result_frame
          (count_ecc_result dev (E.yaffs_ecc_correct
            (List.take 256 (dev.param.readChunkFromNAND dev.driverContext c data).data)
            (dev.param.readChunkFromNAND dev.driverContext c data).nspare.spare.ecc1
            (E.yaffs_ecc_cacl (List.take 256
              (dev.param.readChunkFromNAND dev.driverContext c data).data))).result)
          (E.yaffs_ecc_correct
            (List.take 256 (List.drop 256
              (dev.param.readChunkFromNAND dev.driverContext c data).data))
            (dev.param.readChunkFromNAND dev.driverContext c data).nspare.spare.ecc2
            (E.yaffs_ecc_cacl (List.take 256 (List.drop 256
              (dev.param.readChunkFromNAND dev.driverContext c data).data)))).result
        obtain ⟨b1, b2, b3, _, b5, b6, _⟩ := count_ecc_result_frame dev
          (E.yaffs_ecc_correct
            (List.take 256 (dev.param.readChunkFromNAND dev.driverContext c data).data)
            (dev.param.readChunkFromNAND dev.driverContext c data).nspare.spare.ecc1
            (E.yaffs_ecc_cacl (List.take 256
              (dev.param.readChunkFromNAND dev.driverContext c data).data))).result
        exact ⟨a1.trans b1, a2.trans b2, a3.trans b3, a5.trans b5, a6.trans b6⟩
      · obtain ⟨a1, a2, a3, _, a5, a6, _⟩ := count_ecc_result_frame
          (count_ecc_result dev (E.yaffs_ecc_correct
            (List.take 256 (dev.param.readChunkFromNAND dev.driverContext c data).data)
            (dev.param.readChunkFromNAND dev.driverContext c data).nspare.spare.ecc1
            (E.yaffs_ecc_cacl (List.take 256
              (dev.param.readChunkFromNAND dev.driverContext c data).data))).result)
          (E.yaffs_ecc_correct
            (List.take 256 (List.drop 256
              (dev.param.readChunkFromNAND dev.driverContext c data).data))
            (dev.param.readChunkFromNAND dev.driverContext c data).nspare.spare.ecc2
            (E.yaffs_ecc_cacl (List.take 256 (List.drop 256
              (dev.param.readChunkFromNAND dev.driverContext c data).data)))).result
        obtain ⟨b1, b2, b3, _, b5, b6, _⟩ := count_ecc_result_frame dev
          (E.yaffs_ecc_correct
            (List.take 256 (dev.param.readChunkFromNAND dev.driverContext c data).data)
            (dev.param.readChunkFromNAND dev.driverContext c data).nspare.spare.ecc1
            (E.yaffs_ecc_cacl (List.take 256
              (dev.param.readChunkFromNAND dev.driverContext c data).data))).result
        exact ⟨a1.trans b1, a2.trans b2, a3.trans b3, a5.trans b5, a6.trans b6⟩
    · exact ⟨rfl, rfl, rfl, rfl, rfl⟩
  · split
    · simp only
      split
      · exact ⟨rfl, rfl, rfl, rfl, rfl⟩
      · exact ⟨rfl, rfl, rfl, rfl, rfl⟩
    · exact ⟨rfl, rfl, rfl, rfl, rfl⟩

theorem rd_chunk_spare {σ : Type} (E : EccLib) (dev : yaffs_Device σ) (c : Int)
    (data : Bool) (e0 : yaffs_ECCResult) (cor : Int) (junk : Nat) :
    tags_from_spare_bytes (yaffs_rd_chunk_nand E dev c data e0 cor).spare junk =
      tags_from_spare_bytes
        (dev.param.readChunkFromNAND dev.driverContext c data).nspare.spare junk ∧
    (yaffs_rd_chunk_nand E dev c data e0 cor).spare.pageStatus =
      (dev.param.readChunkFromNAND dev.driverContext c data).nspare.spare.pageStatus ∧
    (yaffs_rd_chunk_nand E dev c data e0 cor).spare.blockStatus =
      (dev.param.readChunkFromNAND dev.driverContext c data).nspare.spare.blockStatus := by
  unfold yaffs_rd_chunk_nand
  split <;> split <;> exact ⟨rfl, rfl, rfl⟩

theorem rd_chunk_no_data {σ : Type} (E : EccLib) (dev : yaffs_Device σ) (c : Int)
    (e0 : yaffs_ECCResult) (cor : Int) :
    (yaffs_rd_chunk_nand E dev c false e0 cor).dev = dev ∧
    (yaffs_rd_chunk_nand E dev c false e0 cor).spare =
      (dev.param.readChunkFromNAND dev.driverContext c false).nspare.spare ∧
    (yaffs_rd_chunk_nand E dev c false e0 cor).eccResult = e0 := by
  unfold yaffs_rd_chunk_nand
  split
  · simp
  · simp

theorem rd_chunk_eccResult {σ : Type} (E : EccLib) (dev : yaffs_Device σ) (c : Int)
    (e0 : yaffs_ECCResult) :
    (yaffs_rd_chunk_nand E dev c true e0 1).eccResult =
      if dev.param.useNANDECC = 0 then
        resolve_ecc_result
          (E.yaffs_ecc_correct
            ((dev.param.readChunkFromNAND dev.driverContext c true).data.take 256)
            (dev.param.readChunkFromNAND dev.driverContext c true).nspare.spare.ecc1
            (E.yaffs_ecc_cacl
              ((dev.param.readChunkFromNAND dev.driverContext c true).data.take 256))).result
          (E.yaffs_ecc_correct
            (((dev.param.readChunkFromNAND dev.driverContext c true).data.drop 256).take 256)
            (dev.param.readChunkFromNAND dev.driverContext c true).nspare.spare.ecc2
            (E.yaffs_ecc_cacl
              (((dev.param.readChunkFromNAND dev.driverContext c true).data.drop 256).take
                256))).result
      else
        resolve_ecc_result (dev.param.readChunkFromNAND dev.driverContext c true).nspare.eccres1
          (dev.param.readChunkFromNAND dev.driverContext c true).nspare.eccres2 := by
  unfold yaffs_rd_chunk_nand
  split
  · simp
  · simp

theorem not_erased_of_tags (s : yaffs_Spare)
    (h : tags_from_spare_bytes s 0 ≠ 2 ^ 64 - 1) : s ≠ yaffs_spare_init := by
  intro hs
  apply h
  rw [hs]
  decide

theorem calc_ne_all_ones (L : TagsLayout) (w : Nat) (hf : L.ecc.fits) (h8 : 8 ≤ L.ecc.width) :
    yaffs_calc_tags_ecc L w ≠ 2 ^ 64 - 1 := by
  intro h
  have h1 : (yaffs_calc_tags_ecc L w).testBit (L.ecc.off + 7) = false := by
    rw [yaffs_calc_tags_ecc_eq, BitField.testBit_set]
    have hc : L.ecc.off ≤ L.ecc.off + 7 ∧ L.ecc.off + 7 < L.ecc.off + L.ecc.width := by omega
    rw [if_pos hc, Nat.add_sub_cancel_left]
    exact Nat.testBit_lt_two_pow (xorPositions_lt _ 64 (le_refl 64))
  rw [h, Nat.testBit_two_pow_sub_one] at h1
  unfold BitField.fits at hf
  have : L.ecc.off + 7 < 64 := by omega
  simp [this] at h1

theorem compat_rd_used {σ : Type} (L : TagsLayout) (E : EccLib) (dev : yaffs_Device σ)
    (c : Int) (data : Bool) (t0 : yaffs_ExtendedTags)
    (hret : (yaffs_rd_chunk_nand E dev c data yaffs_ECCResult.YAFFS_ECC_RESULT_UNKNOWN 1).retVal ≠ 0)
    (hused : (yaffs_rd_chunk_nand E dev c data
      yaffs_ECCResult.YAFFS_ECC_RESULT_UNKNOWN 1).spare ≠ yaffs_spare_init) :
    yaffs_tags_compat_rd L E dev c data (some t0) =
      { retVal := YAFFS_OK
        dev := (yaffs_get_tags_from_spare L
          (yaffs_rd_chunk_nand E dev c data yaffs_ECCResult.YAFFS_ECC_RESULT_UNKNOWN 1).dev
          (yaffs_rd_chunk_nand E dev c data yaffs_ECCResult.YAFFS_ECC_RESULT_UNKNOWN 1).spare 0).1
        data := (yaffs_rd_chunk_nand E dev c data yaffs_ECCResult.YAFFS_ECC_RESULT_UNKNOWN 1).data
        eTags := some (extended_of_tags L
          (yaffs_get_tags_from_spare L
            (yaffs_rd_chunk_nand E dev c data yaffs_ECCResult.YAFFS_ECC_RESULT_UNKNOWN 1).dev
            (yaffs_rd_chunk_nand E dev c data
              yaffs_ECCResult.YAFFS_ECC_RESULT_UNKNOWN 1).spare 0).1
          { t0 with
            chunkDeleted :=
              if yaffs_count_bits (yaffs_rd_chunk_nand E dev c data
                yaffs_ECCResult.YAFFS_ECC_RESULT_UNKNOWN 1).spare.pageStatus < 7 then 1 else 0
            eccResult := (yaffs_rd_chunk_nand E dev c data
              yaffs_ECCResult.YAFFS_ECC_RESULT_UNKNOWN 1).eccResult
            blockBad := 0
            chunkUsed := 1 }
          (yaffs_get_tags_from_spare L
            (yaffs_rd_chunk_nand E dev c data yaffs_ECCResult.YAFFS_ECC_RESULT_UNKNOWN 1).dev
            (yaffs_rd_chunk_nand E dev c data
              yaffs_ECCResult.YAFFS_ECC_RESULT_UNKNOWN 1).spare 0).2) } := by
  unfold yaffs_tags_compat_rd
  simp only [hret, hused, ne_eq, not_false_eq_true, if_true, one_ne_zero]

/-! ## Claims on the public functions -/

theorem compat_wr_stored {σ : Type} (L : TagsLayout) (E : EccLib) (dev : yaffs_Device σ)
    (c : Int) (data : Option (List Nat)) (e : yaffs_ExtendedTags)
    (hchunk : ¬ c < wrap32 (dev.param.startBlock * dev.param.nChunksPerBlock)) :
    yaffs_tags_compat_wr L E dev c data e =
      ((dev.param.writeChunkToNAND dev.driverContext c data
          (compat_wr_spare L E dev data e)).1,
        { dev with driverContext := (dev.param.writeChunkToNAND dev.driverContext c data
          (compat_wr_spare L E dev data e)).2 }) := by
  unfold yaffs_tags_compat_wr yaffs_wr_nand
  rw [if_neg hchunk]

theorem count_bits_255 : yaffs_count_bits 0xFF = 8 := by decide

theorem count_bits_0 : yaffs_count_bits 0 = 0 := by decide

theorem compat_wr_spare_pageStatus {σ : Type} (L : TagsLayout) (E : EccLib)
    (dev : yaffs_Device σ) (data : Option (List Nat)) (e : yaffs_ExtendedTags)
    (hdel : e.chunkDeleted = 0) : (compat_wr_spare L E dev data e).pageStatus = 0xFF := by
  unfold compat_wr_spare
  simp only [hdel, ne_eq, not_true_eq_false, if_false]
  cases data with
  | none => rfl
  | some d =>
    simp only [yaffs_load_tags_to_spare, store_tag_bytes, yaffs_calc_ecc]
    split <;> rfl

theorem compat_wr_spare_ecc {σ : Type} (L : TagsLayout) (E : EccLib)
    (dev : yaffs_Device σ) (d : List Nat) (e : yaffs_ExtendedTags)
    (hdel : e.chunkDeleted = 0) (hsw : dev.param.useNANDECC = 0) :
    (compat_wr_spare L E dev (some d) e).ecc1 = E.yaffs_ecc_cacl (d.take 256) ∧
    (compat_wr_spare L E dev (some d) e).ecc2 = E.yaffs_ecc_cacl ((d.drop 256).take 256) := by
  unfold compat_wr_spare
  simp only [hdel, hsw, ne_eq, not_true_eq_false, if_false, if_true, yaffs_load_tags_to_spare,
    store_tag_bytes, yaffs_calc_ecc, and_self]

/-- The RAM driver stores what it is given. -/
theorem ramDevice_stores : StoresAndReturns ramDevice.param := by
  intro ctx chunk data spare
  refine ⟨rfl, fun wantData => ?_⟩
  simp only [ramDevice, ramWrite, ramRead, List.find?, decide_True]
  refine ⟨trivial, trivial, fun d _ hd => ?_⟩
  subst hd
  rfl

/-- C7. End-to-end round trip through `yaffs_tags_compat_wr` and
`yaffs_tags_compat_rd`: over a driver that stores what it is given, for a chunk
that passes the start-block check, extended tags that are not deleted, whose
objectId, chunkId and serialNumber fit their bitfields and whose byteCount is
below 4096, on a device with at least 1024 data bytes per chunk: the write
succeeds, the read succeeds and reports chunkUsed = 1, chunkDeleted = 0,
blockBad = 0 and the written objectId, chunkId, byteCount and serialNumber; when
data was written and a data buffer is read, and the corrector finds no error in
either unmodified half, eccResult is NO_ERROR. -/
theorem compat_wr_rd_round_trip {σ : Type} (L : TagsLayout) (E : EccLib)
    (dev : yaffs_Device σ) (chunkInNAND : Int) (data : Option (List Nat))
    (eTags t0 : yaffs_ExtendedTags) (wantData : Bool)
    (hL : L.WF) (h8 : 8 ≤ L.ecc.width) (hdrv : StoresAndReturns dev.param)
    (hchunk : ¬ chunkInNAND < wrap32 (dev.param.startBlock * dev.param.nChunksPerBlock))
    (hdel : eTags.chunkDeleted = 0)
    (hobj : eTags.objectId < 2 ^ L.objectId.width)
    (hcid : eTags.chunkId < 2 ^ L.chunkId.width)
    (hser : eTags.serialNumber < 2 ^ L.serialNumber.width)
    (hbc : eTags.byteCount < 4096) (hn : 1024 ≤ dev.nDataBytesPerChunk) :
    (yaffs_tags_compat_wr L E dev chunkInNAND data eTags).1 = YAFFS_OK ∧
    (yaffs_tags_compat_rd L E (yaffs_tags_compat_wr L E dev chunkInNAND data eTags).2
      chunkInNAND wantData (some t0)).retVal = YAFFS_OK ∧
    ∃ t, (yaffs_tags_compat_rd L E (yaffs_tags_compat_wr L E dev chunkInNAND data eTags).2
        chunkInNAND wantData (some t0)).eTags = some t ∧
      t.chunkUsed = 1 ∧ t.chunkDeleted = 0 ∧ t.blockBad = 0 ∧
      t.objectId = eTags.objectId ∧ t.chunkId = eTags.chunkId ∧
      t.byteCount = eTags.byteCount ∧ t.serialNumber = eTags.serialNumber ∧
      (∀ d, wantData = true → data = some d →
        (E.yaffs_ecc_correct (d.take 256) (E.yaffs_ecc_cacl (d.take 256))
          (E.yaffs_ecc_cacl (d.take 256))).result = 0 →
        (E.yaffs_ecc_correct ((d.drop 256).take 256)
          (E.yaffs_ecc_cacl ((d.drop 256).take 256))
          (E.yaffs_ecc_cacl ((d.drop 256).take 256))).result = 0 →
        t.eccResult = yaffs_ECCResult.YAFFS_ECC_RESULT_NO_ERROR) := by
  have hwr := compat_wr_stored L E dev chunkInNAND data eTags hchunk
  obtain ⟨hw1, hrd⟩ := hdrv dev.driverContext chunkInNAND data
    (compat_wr_spare L E dev data eTags)
  obtain ⟨hr1, hr2, hr3⟩ := hrd wantData
  rw [hwr]
  simp only
  -- the device after the write
  generalize hdev1 : ({ dev with driverContext := (dev.param.writeChunkToNAND dev.driverContext
    chunkInNAND data (compat_wr_spare L E dev data eTags)).2 } : yaffs_Device σ) = dev1
  have hp : dev1.param = dev.param := by rw [← hdev1]
  have hctx : dev1.driverContext = (dev.param.writeChunkToNAND dev.driverContext
    chunkInNAND data (compat_wr_spare L E dev data eTags)).2 := by rw [← hdev1]
  have hnd : dev1.nDataBytesPerChunk = dev.nDataBytesPerChunk := by rw [← hdev1]
  have hread : dev1.param.readChunkFromNAND dev1.driverContext chunkInNAND wantData =
      dev.param.readChunkFromNAND (dev.param.writeChunkToNAND dev.driverContext
        chunkInNAND data (compat_wr_spare L E dev data eTags)).2 chunkInNAND wantData := by
    rw [hp, hctx]
  -- the chunk read back
  have hret : (yaffs_rd_chunk_nand E dev1 chunkInNAND wantData
      yaffs_ECCResult.YAFFS_ECC_RESULT_UNKNOWN 1).retVal = YAFFS_OK := by
    rw [rd_chunk_retVal, hread]; exact hr1
  obtain ⟨hs1, hs2, _⟩ := rd_chunk_spare E dev1 chunkInNAND wantData
    yaffs_ECCResult.YAFFS_ECC_RESULT_UNKNOWN 1 0
  rw [hread, hr2] at hs1 hs2
  simp only at hs1 hs2
  have htags := compat_wr_spare_tags L E dev data eTags hL hdel
  rw [htags] at hs1
  have hused : (yaffs_rd_chunk_nand E dev1 chunkInNAND wantData
      yaffs_ECCResult.YAFFS_ECC_RESULT_UNKNOWN 1).spare ≠ yaffs_spare_init := by
    apply not_erased_of_tags
    rw [hs1]
    exact calc_ne_all_ones L _ hL.1.2.2.2.2.1 h8
  have hret0 : (yaffs_rd_chunk_nand E dev1 chunkInNAND wantData
      yaffs_ECCResult.YAFFS_ECC_RESULT_UNKNOWN 1).retVal ≠ 0 := by
    rw [hret]; decide
  rw [compat_rd_used L E dev1 chunkInNAND wantData t0 hret0 hused]
  have hchk : yaffs_check_tags_ecc L (tags_from_spare_bytes
      (yaffs_rd_chunk_nand E dev1 chunkInNAND wantData
        yaffs_ECCResult.YAFFS_ECC_RESULT_UNKNOWN 1).spare 0) =
      (yaffs_calc_tags_ecc L (tags_of_extended L dev eTags), 0) := by
    rw [hs1, check_of_encoded]
  obtain ⟨g1, _, _⟩ := get_tags_of_check L (yaffs_rd_chunk_nand E dev1 chunkInNAND wantData
    yaffs_ECCResult.YAFFS_ECC_RESULT_UNKNOWN 1).dev _ 0 _ _ hchk
  have hgdev : (yaffs_get_tags_from_spare L (yaffs_rd_chunk_nand E dev1 chunkInNAND wantData
      yaffs_ECCResult.YAFFS_ECC_RESULT_UNKNOWN 1).dev (yaffs_rd_chunk_nand E dev1 chunkInNAND
      wantData yaffs_ECCResult.YAFFS_ECC_RESULT_UNKNOWN 1).spare 0).1.nDataBytesPerChunk =
      dev.nDataBytesPerChunk := by
    unfold yaffs_get_tags_from_spare
    simp only [hchk]
    simp only [lt_self_iff_false, gt_iff_lt, if_false]
    rw [(rd_chunk_data_frame E dev1 chunkInNAND wantData _ 1).2.1, hnd]
  obtain ⟨d1, d2, d3, d4, d5⟩ := hL.2.1
  rw [compat_wr_spare_pageStatus L E dev data eTags hdel] at hs2
  have hbyte := extended_of_tags_byteCount L
    (yaffs_get_tags_from_spare L (yaffs_rd_chunk_nand E dev1 chunkInNAND wantData
      yaffs_ECCResult.YAFFS_ECC_RESULT_UNKNOWN 1).dev (yaffs_rd_chunk_nand E dev1 chunkInNAND
      wantData yaffs_ECCResult.YAFFS_ECC_RESULT_UNKNOWN 1).spare 0).1
    { t0 with
      chunkDeleted :=
        if yaffs_count_bits (yaffs_rd_chunk_nand E dev1 chunkInNAND wantData
          yaffs_ECCResult.YAFFS_ECC_RESULT_UNKNOWN 1).spare.pageStatus < 7 then 1 else 0
      eccResult := (yaffs_rd_chunk_nand E dev1 chunkInNAND wantData
        yaffs_ECCResult.YAFFS_ECC_RESULT_UNKNOWN 1).eccResult
      blockBad := 0
      chunkUsed := 1 }
    (yaffs_get_tags_from_spare L (yaffs_rd_chunk_nand E dev1 chunkInNAND wantData
      yaffs_ECCResult.YAFFS_ECC_RESULT_UNKNOWN 1).dev (yaffs_rd_chunk_nand E dev1 chunkInNAND
      wantData yaffs_ECCResult.YAFFS_ECC_RESULT_UNKNOWN 1).spare 0).2 hL
  refine ⟨hw1, rfl, _, rfl, ?_, ?_, ?_, ?_, ?_, ?_, ?_, ?_⟩
  · simp [extended_of_tags]
  · simp only [extended_of_tags, hs2, count_bits_255]
    rfl
  · simp [extended_of_tags]
  · simp only [extended_of_tags, g1]
    rw [get_calc_of_disjoint L _ d4, tags_of_extended_objectId L dev eTags hL,
      Nat.mod_eq_of_lt hobj]
  · simp only [extended_of_tags, g1]
    rw [get_calc_of_disjoint L _ d1, tags_of_extended_chunkId L dev eTags hL,
      Nat.mod_eq_of_lt hcid]
  · rw [hbyte, hgdev, if_pos (show dev.nDataBytesPerChunk ≥ 1024 from hn), g1,
      get_calc_of_disjoint L _ d3, get_calc_of_disjoint L _ d5,
      tags_of_extended_byteCountLSB L dev eTags hL,
      tags_of_extended_byteCountMSB L dev eTags hL,
      if_pos (show dev.nDataBytesPerChunk ≥ 1024 from hn)]
    omega
  · simp only [extended_of_tags, g1]
    rw [get_calc_of_disjoint L _ d2, tags_of_extended_serialNumber L dev eTags,
      Nat.mod_eq_of_lt hser]
  · intro d hwant hdata h1 h2
    subst hwant
    have hecc : (extended_of_tags L
        (yaffs_get_tags_from_spare L (yaffs_rd_chunk_nand E dev1 chunkInNAND true
          yaffs_ECCResult.YAFFS_ECC_RESULT_UNKNOWN 1).dev (yaffs_rd_chunk_nand E dev1
          chunkInNAND true yaffs_ECCResult.YAFFS_ECC_RESULT_UNKNOWN 1).spare 0).1
        { t0 with
          chunkDeleted :=
            if yaffs_count_bits (yaffs_rd_chunk_nand E dev1 chunkInNAND true
              yaffs_ECCResult.YAFFS_ECC_RESULT_UNKNOWN 1).spare.pageStatus < 7 then 1 else 0
          eccResult := (yaffs_rd_chunk_nand E dev1 chunkInNAND true
            yaffs_ECCResult.YAFFS_ECC_RESULT_UNKNOWN 1).eccResult
          blockBad := 0
          chunkUsed := 1 }
        (yaffs_get_tags_from_spare L (yaffs_rd_chunk_nand E dev1 chunkInNAND true
          yaffs_ECCResult.YAFFS_ECC_RESULT_UNKNOWN 1).dev (yaffs_rd_chunk_nand E dev1
          chunkInNAND true yaffs_ECCResult.YAFFS_ECC_RESULT_UNKNOWN 1).spare 0).2).eccResult =
        (yaffs_rd_chunk_nand E dev1 chunkInNAND true
          yaffs_ECCResult.YAFFS_ECC_RESULT_UNKNOWN 1).eccResult := rfl
    rw [hecc, rd_chunk_eccResult, hread, hr2, hr3 d rfl hdata, hp]
    split
    · next hsw =>
      subst hdata
      obtain ⟨e1, e2⟩ := compat_wr_spare_ecc L E dev d eTags hdel hsw
      simp only [e1, e2, h1, h2]
      rfl
    · rfl

set_option maxRecDepth 100000 in
/-- The end-to-end scenario evaluated on the sample device: the tags read back
are the written ones, with chunkUsed = 1 and eccResult = NO_ERROR. -/
theorem end_to_end_scenario_eval :
    (yaffs_tags_compat_rd yaffs_guts_layout sampleEcc
      (yaffs_tags_compat_wr yaffs_guts_layout sampleEcc ramDevice 10
        (some (List.replicate 512 0)) sampleTags).2 10 true (some sampleTags)).eTags =
      some { sampleTags with
        chunkUsed := 1, eccResult := yaffs_ECCResult.YAFFS_ECC_RESULT_NO_ERROR } := by
  decide

/-- Witness of C7: the sample device (2048 data bytes per chunk, RAM driver),
chunk 10, tags objectId 42, chunkId 7, byteCount 513, serialNumber 3, written
with 512 data bytes and read back with a data buffer. -/
theorem compat_wr_rd_round_trip_witness :
    yaffs_guts_layout.WF ∧ 8 ≤ yaffs_guts_layout.ecc.width ∧
    StoresAndReturns ramDevice.param ∧
    ¬ (10 : Int) < wrap32 (ramDevice.param.startBlock * ramDevice.param.nChunksPerBlock) ∧
    sampleTags.chunkDeleted = 0 ∧
    sampleTags.objectId < 2 ^ yaffs_guts_layout.objectId.width ∧
    sampleTags.chunkId < 2 ^ yaffs_guts_layout.chunkId.width ∧
    sampleTags.serialNumber < 2 ^ yaffs_guts_layout.serialNumber.width ∧
    sampleTags.byteCount < 4096 ∧ 1024 ≤ ramDevice.nDataBytesPerChunk ∧
    (yaffs_tags_compat_wr yaffs_guts_layout sampleEcc ramDevice 10
      (some (List.replicate 512 0)) sampleTags).1 = YAFFS_OK ∧
    (yaffs_tags_compat_rd yaffs_guts_layout sampleEcc
      (yaffs_tags_compat_wr yaffs_guts_layout sampleEcc ramDevice 10
        (some (List.replicate 512 0)) sampleTags).2 10 true (some sampleTags)).retVal =
      YAFFS_OK ∧
    (yaffs_tags_compat_rd yaffs_guts_layout sampleEcc
      (yaffs_tags_compat_wr yaffs_guts_layout sampleEcc ramDevice 10
        (some (List.replicate 512 0)) sampleTags).2 10 true (some sampleTags)).eTags =
      some { sampleTags with
        chunkUsed := 1, eccResult := yaffs_ECCResult.YAFFS_ECC_RESULT_NO_ERROR } :=
  have hdrv : StoresAndReturns ramDevice.param := ramDevice_stores
  ⟨by decide, by decide, hdrv, by decide, by decide, by decide, by decide, by decide,
    by decide, by decide,
    (compat_wr_rd_round_trip yaffs_guts_layout sampleEcc ramDevice 10
      (some (List.replicate 512 0)) sampleTags sampleTags true (by decide) (by decide) hdrv
      (by decide) (by decide) (by decide) (by decide) (by decide) (by decide) (by decide)).1,
    (compat_wr_rd_round_trip yaffs_guts_layout sampleEcc ramDevice 10
      (some (List.replicate 512 0)) sampleTags sampleTags true (by decide) (by decide) hdrv
      (by decide) (by decide) (by decide) (by decide) (by decide) (by decide)
      (by decide)).2.1,
    end_to_end_scenario_eval⟩

theorem compat_wr_spare_deleted {σ : Type} (L : TagsLayout) (E : EccLib)
    (dev : yaffs_Device σ) (data : Option (List Nat)) (e : yaffs_ExtendedTags)
    (hdel : e.chunkDeleted ≠ 0) :
    compat_wr_spare L E dev data e = { yaffs_spare_init with pageStatus := 0 } := by
  unfold compat_wr_spare
  simp only [hdel, ne_eq, not_false_eq_true, if_true]

/-- C9. Deletion semantics: with chunkDeleted set, `yaffs_tags_compat_wr` hands
the driver a spare that is 0xFF in every byte except pageStatus = 0 (no tags, no
data ECC); over a driver that stores what it is given and for a chunk that passes
the start-block check the write succeeds, and a following `yaffs_tags_compat_rd`
of the chunk succeeds with chunkUsed = 1 and chunkDeleted = 1. -/
theorem deletion_semantics {σ : Type} (L : TagsLayout) (E : EccLib) (dev : yaffs_Device σ)
    (chunkInNAND : Int) (data : Option (List Nat)) (eTags t0 : yaffs_ExtendedTags)
    (wantData : Bool) (hdrv : StoresAndReturns dev.param)
    (hchunk : ¬ chunkInNAND < wrap32 (dev.param.startBlock * dev.param.nChunksPerBlock))
    (hdel : eTags.chunkDeleted ≠ 0) :
    compat_wr_spare L E dev data eTags = { yaffs_spare_init with pageStatus := 0 } ∧
    yaffs_tags_compat_wr L E dev chunkInNAND data eTags =
      ((dev.param.writeChunkToNAND dev.driverContext chunkInNAND data
          { yaffs_spare_init with pageStatus := 0 }).1,
        { dev with driverContext := (dev.param.writeChunkToNAND dev.driverContext chunkInNAND
          data { yaffs_spare_init with pageStatus := 0 }).2 }) ∧
    (yaffs_tags_compat_wr L E dev chunkInNAND data eTags).1 = YAFFS_OK ∧
    (yaffs_tags_compat_rd L E (yaffs_tags_compat_wr L E dev chunkInNAND data eTags).2
      chunkInNAND wantData (some t0)).retVal = YAFFS_OK ∧
    ∃ t, (yaffs_tags_compat_rd L E (yaffs_tags_compat_wr L E dev chunkInNAND data eTags).2
        chunkInNAND wantData (some t0)).eTags = some t ∧
      t.chunkUsed = 1 ∧ t.chunkDeleted = 1 := by
  have hsp := compat_wr_spare_deleted L E dev data eTags hdel
  have hwr := compat_wr_stored L E dev chunkInNAND data eTags hchunk
  rw [hsp] at hwr
  obtain ⟨hw1, hrd⟩ := hdrv dev.driverContext chunkInNAND data
    { yaffs_spare_init with pageStatus := 0 }
  obtain ⟨hr1, hr2, _⟩ := hrd wantData
  refine ⟨hsp, hwr, ?_⟩
  rw [hwr]
  simp only
  generalize hdev1 : ({ dev with driverContext := (dev.param.writeChunkToNAND dev.driverContext
    chunkInNAND data { yaffs_spare_init with pageStatus := 0 }).2 } : yaffs_Device σ) = dev1
  have hread : dev1.param.readChunkFromNAND dev1.driverContext chunkInNAND wantData =
      dev.param.readChunkFromNAND (dev.param.writeChunkToNAND dev.driverContext
        chunkInNAND data { yaffs_spare_init with pageStatus := 0 }).2 chunkInNAND wantData := by
    rw [← hdev1]
  have hret : (yaffs_rd_chunk_nand E dev1 chunkInNAND wantData
      yaffs_ECCResult.YAFFS_ECC_RESULT_UNKNOWN 1).retVal = YAFFS_OK := by
    rw [rd_chunk_retVal, hread]; exact hr1
  obtain ⟨_, hs2, _⟩ := rd_chunk_spare E dev1 chunkInNAND wantData
    yaffs_ECCResult.YAFFS_ECC_RESULT_UNKNOWN 1 0
  rw [hread, hr2] at hs2
  simp only at hs2
  have hused : (yaffs_rd_chunk_nand E dev1 chunkInNAND wantData
      yaffs_ECCResult.YAFFS_ECC_RESULT_UNKNOWN 1).spare ≠ yaffs_spare_init := by
    intro h
    rw [h] at hs2
    exact absurd hs2 (by decide)
  have hret0 : (yaffs_rd_chunk_nand E dev1 chunkInNAND wantData
      yaffs_ECCResult.YAFFS_ECC_RESULT_UNKNOWN 1).retVal ≠ 0 := by
    rw [hret]; decide
  rw [compat_rd_used L E dev1 chunkInNAND wantData t0 hret0 hused]
  refine ⟨hw1, rfl, _, rfl, ?_, ?_⟩
  · simp [extended_of_tags]
  · simp only [extended_of_tags, hs2, count_bits_0]
    rfl

/-- Witness of C9: deleting chunk 10 of the sample device. -/
theorem deletion_semantics_witness :
    StoresAndReturns ramDevice.param ∧
    ¬ (10 : Int) < wrap32 (ramDevice.param.startBlock * ramDevice.param.nChunksPerBlock) ∧
    ({ sampleTags with chunkDeleted := 1 } : yaffs_ExtendedTags).chunkDeleted ≠ 0 ∧
    compat_wr_spare yaffs_guts_layout sampleEcc ramDevice none
        { sampleTags with chunkDeleted := 1 } =
      { yaffs_spare_init with pageStatus := 0 } ∧
    (yaffs_tags_compat_rd yaffs_guts_layout sampleEcc
      (yaffs_tags_compat_wr yaffs_guts_layout sampleEcc ramDevice 10 none
        { sampleTags with chunkDeleted := 1 }).2 10 false (some sampleTags)).retVal =
      YAFFS_OK :=
  ⟨ramDevice_stores, by decide, by decide,
    (deletion_semantics yaffs_guts_layout sampleEcc ramDevice 10 none
      { sampleTags with chunkDeleted := 1 } sampleTags false ramDevice_stores
      (by decide) (by decide)).1,
    (deletion_semantics yaffs_guts_layout sampleEcc ramDevice 10 none
      { sampleTags with chunkDeleted := 1 } sampleTags false ramDevice_stores
      (by decide) (by decide)).2.2.2.1⟩

set_option maxRecDepth 100000 in
theorem count_bits_table_correct : ∀ y, y < 256 → yaffs_count_bits_table.getD y 0 = popcount8 y := by
  decide

theorem popcount8_mod (x : Nat) : popcount8 (x % 256) = popcount8 x := by
  unfold popcount8
  congr 1
  apply List.filter_congr
  intro k hk
  have hk8 : k < 8 := List.mem_range.mp hk
  have h : (256 : Nat) = 2 ^ 8 := by norm_num
  rw [h, Nat.testBit_mod_two_pow]
  simp [hk8]

theorem count_bits_eq_popcount (x : Nat) : yaffs_count_bits x = popcount8 x := by
  unfold yaffs_count_bits
  rw [count_bits_table_correct _ (Nat.mod_lt _ (by decide)), popcount8_mod]

theorem block_state_cases (s0 s1 : yaffs_Spare) :
    (popcount8 (s0.blockStatus &&& s1.blockStatus) < 7 →
      block_state_of_spares s0 s1 = yaffs_BlockState.YAFFS_BLOCK_STATE_DEAD) ∧
    (¬ popcount8 (s0.blockStatus &&& s1.blockStatus) < 7 → s0 = yaffs_spare_init →
      block_state_of_spares s0 s1 = yaffs_BlockState.YAFFS_BLOCK_STATE_EMPTY) ∧
    (¬ popcount8 (s0.blockStatus &&& s1.blockStatus) < 7 → s0 ≠ yaffs_spare_init →
      block_state_of_spares s0 s1 = yaffs_BlockState.YAFFS_BLOCK_STATE_NEEDS_SCANNING) := by
  unfold block_state_of_spares
  rw [count_bits_eq_popcount]
  refine ⟨fun h => ?_, fun h h2 => ?_, fun h h2 => ?_⟩
  · rw [if_pos h]
  · rw [if_neg h, if_pos h2]
  · rw [if_neg h, if_neg h2]

/-- C10. Block state classification: `yaffs_tags_compat_query_block` returns
success and sequence number 0; with `spare0` and `spare1` the spares the driver
reads from the first and second chunk of the block, the state is DEAD exactly
when the AND of the two blockStatus bytes has fewer than 7 set bits, otherwise
EMPTY exactly when `spare0` is 0xFF in every byte, otherwise NEEDS_SCANNING.  A
block whose two spares are erased is EMPTY; a block whose first chunk holds the
spare `yaffs_tags_compat_wr` builds for a chunk that is not deleted, with
blockStatus 0xFF in the second spare as well, is NEEDS_SCANNING. -/
theorem query_block_classification {σ : Type} (E : EccLib) (dev : yaffs_Device σ)
    (blockNo : Int) :
    (yaffs_tags_compat_query_block E dev blockNo).retVal = YAFFS_OK ∧
    (yaffs_tags_compat_query_block E dev blockNo).sequenceNumber = 0 ∧
    ((yaffs_tags_compat_query_block E dev blockNo).state =
        yaffs_BlockState.YAFFS_BLOCK_STATE_DEAD ↔
      popcount8
        ((dev.param.readChunkFromNAND dev.driverContext
            (wrap32 (blockNo * dev.param.nChunksPerBlock)) false).nspare.spare.blockStatus &&&
          (dev.param.readChunkFromNAND dev.driverContext
            (wrap32 (wrap32 (blockNo * dev.param.nChunksPerBlock) + 1))
              false).nspare.spare.blockStatus) < 7) ∧
    ((yaffs_tags_compat_query_block E dev blockNo).state =
        yaffs_BlockState.YAFFS_BLOCK_STATE_EMPTY ↔
      ¬ popcount8
        ((dev.param.readChunkFromNAND dev.driverContext
            (wrap32 (blockNo * dev.param.nChunksPerBlock)) false).nspare.spare.blockStatus &&&
          (dev.param.readChunkFromNAND dev.driverContext
            (wrap32 (wrap32 (blockNo * dev.param.nChunksPerBlock) + 1))
              false).nspare.spare.blockStatus) < 7 ∧
      (dev.param.readChunkFromNAND dev.driverContext
        (wrap32 (blockNo * dev.param.nChunksPerBlock)) false).nspare.spare = yaffs_spare_init) ∧
    ((yaffs_tags_compat_query_block E dev blockNo).state =
        yaffs_BlockState.YAFFS_BLOCK_STATE_NEEDS_SCANNING ↔
      ¬ popcount8
        ((dev.param.readChunkFromNAND dev.driverContext
            (wrap32 (blockNo * dev.param.nChunksPerBlock)) false).nspare.spare.blockStatus &&&
          (dev.param.readChunkFromNAND dev.driverContext
            (wrap32 (wrap32 (blockNo * dev.param.nChunksPerBlock) + 1))
              false).nspare.spare.blockStatus) < 7 ∧
      (dev.param.readChunkFromNAND dev.driverContext
        (wrap32 (blockNo * dev.param.nChunksPerBlock)) false).nspare.spare ≠ yaffs_spare_init) ∧
    ((dev.param.readChunkFromNAND dev.driverContext
          (wrap32 (blockNo * dev.param.nChunksPerBlock)) false).nspare.spare = yaffs_spare_init →
      (dev.param.readChunkFromNAND dev.driverContext
          (wrap32 (wrap32 (blockNo * dev.param.nChunksPerBlock) + 1))
            false).nspare.spare = yaffs_spare_init →
      (yaffs_tags_compat_query_block E dev blockNo).state =
        yaffs_BlockState.YAFFS_BLOCK_STATE_EMPTY) ∧
    (∀ (L : TagsLayout) (E0 : EccLib) (dev0 : yaffs_Device σ) (data : Option (List Nat))
        (eTags : yaffs_ExtendedTags),
      L.WF → 8 ≤ L.ecc.width → eTags.chunkDeleted = 0 →
      (dev.param.readChunkFromNAND dev.driverContext
          (wrap32 (blockNo * dev.param.nChunksPerBlock)) false).nspare.spare =
        compat_wr_spare L E0 dev0 data eTags →
      (dev.param.readChunkFromNAND dev.driverContext
          (wrap32 (wrap32 (blockNo * dev.param.nChunksPerBlock) + 1))
            false).nspare.spare.blockStatus = 0xFF →
      (yaffs_tags_compat_query_block E dev blockNo).state =
        yaffs_BlockState.YAFFS_BLOCK_STATE_NEEDS_SCANNING) := by
  obtain ⟨hd0, hs0, _⟩ := rd_chunk_no_data E dev (wrap32 (blockNo * dev.param.nChunksPerBlock))
    yaffs_ECCResult.YAFFS_ECC_RESULT_UNKNOWN 1
  obtain ⟨_, hs1, _⟩ := rd_chunk_no_data E dev
    (wrap32 (wrap32 (blockNo * dev.param.nChunksPerBlock) + 1))
    (yaffs_rd_chunk_nand E dev (wrap32 (blockNo * dev.param.nChunksPerBlock)) false
      yaffs_ECCResult.YAFFS_ECC_RESULT_UNKNOWN 1).eccResult 1
  have hstate : (yaffs_tags_compat_query_block E dev blockNo).state =
      block_state_of_spares
        (dev.param.readChunkFromNAND dev.driverContext
          (wrap32 (blockNo * dev.param.nChunksPerBlock)) false).nspare.spare
        (dev.param.readChunkFromNAND dev.driverContext
          (wrap32 (wrap32 (blockNo * dev.param.nChunksPerBlock) + 1)) false).nspare.spare := by
    unfold yaffs_tags_compat_query_block
    simp only [hd0, hs0, hs1]
  rw [hstate]
  generalize (dev.param.readChunkFromNAND dev.driverContext
    (wrap32 (blockNo * dev.param.nChunksPerBlock)) false).nspare.spare = s0
  generalize (dev.param.readChunkFromNAND dev.driverContext
    (wrap32 (wrap32 (blockNo * dev.param.nChunksPerBlock) + 1)) false).nspare.spare = s1
  obtain ⟨c1, c2, c3⟩ := block_state_cases s0 s1
  refine ⟨rfl, rfl, ?_, ?_, ?_, ?_, ?_⟩
  · by_cases h : popcount8 (s0.blockStatus &&& s1.blockStatus) < 7
    · rw [c1 h]
      exact ⟨fun _ => h, fun _ => rfl⟩
    · by_cases h2 : s0 = yaffs_spare_init
      · rw [c2 h h2]
        exact ⟨fun hh => absurd hh (by decide), fun hh => absurd hh h⟩
      · rw [c3 h h2]
        exact ⟨fun hh => absurd hh (by decide), fun hh => absurd hh h⟩
  · by_cases h : popcount8 (s0.blockStatus &&& s1.blockStatus) < 7
    · rw [c1 h]
      exact ⟨fun hh => absurd hh (by decide), fun hh => absurd h hh.1⟩
    · by_cases h2 : s0 = yaffs_spare_init
      · rw [c2 h h2]
        exact ⟨fun _ => ⟨h, h2⟩, fun _ => rfl⟩
      · rw [c3 h h2]
        exact ⟨fun hh => absurd hh (by decide), fun hh => absurd hh.2 h2⟩
  · by_cases h : popcount8 (s0.blockStatus &&& s1.blockStatus) < 7
    · rw [c1 h]
      exact ⟨fun hh => absurd hh (by decide), fun hh => absurd h hh.1⟩
    · by_cases h2 : s0 = yaffs_spare_init
      · rw [c2 h h2]
        exact ⟨fun hh => absurd hh (by decide), fun hh => absurd h2 hh.2⟩
      · rw [c3 h h2]
        exact ⟨fun _ => ⟨h, h2⟩, fun _ => rfl⟩
  · intro h0 h1
    apply c2 _ h0
    rw [h0, h1]
    decide
  · intro L E0 dev0 data eTags hL h8 hdel h0 h1
    have hne : s0 ≠ yaffs_spare_init := by
      apply not_erased_of_tags
      rw [h0, compat_wr_spare_tags L E0 dev0 data eTags hL hdel]
      exact calc_ne_all_ones L _ hL.1.2.2.2.2.1 h8
    have hb : s0.blockStatus = 0xFF := by
      rw [h0]
      unfold compat_wr_spare
      simp only [hdel, ne_eq, not_true_eq_false, if_false]
      cases data with
      | none => rfl
      | some d =>
        simp only [yaffs_load_tags_to_spare, store_tag_bytes, yaffs_calc_ecc]
        split <;> rfl
    apply c3 _ hne
    rw [hb, h1]
    decide

/-- Witness of C10: block 0 of the sample device, never written, is EMPTY. -/
theorem query_block_classification_witness :
    (yaffs_tags_compat_query_block sampleEcc ramDevice 0).retVal = YAFFS_OK ∧
    (yaffs_tags_compat_query_block sampleEcc ramDevice 0).state =
      yaffs_BlockState.YAFFS_BLOCK_STATE_EMPTY :=
  ⟨(query_block_classification sampleEcc ramDevice 0).1,
    (query_block_classification sampleEcc ramDevice 0).2.2.2.2.2.1 (by decide) (by decide)⟩

/-! ## The write range check and the result of a read -/

/-- C12. Write range check.  With `startBlock * nChunksPerBlock` representable as
an `int` (the multiplication does not overflow): when
`chunkInNAND < startBlock * nChunksPerBlock`, `yaffs_wr_nand` returns failure,
the device and the driver's state are as before and the list of the calls of
the driver's write is as before (the driver is not called); for every other
chunk index its result and the driver's new state are those of the driver's
write applied to the state before with the same chunk index, data and spare,
nothing else of the device changes, and the list of calls has grown by exactly
that one call. -/
theorem wr_nand_range_check {σ : Type} (dev : yaffs_Device σ) (chunkInNAND : Int)
    (data : Option (List Nat)) (spare : yaffs_Spare) (log : List WriteCall)
    (hprod : isInt32 (dev.param.startBlock * dev.param.nChunksPerBlock)) :
    (chunkInNAND < dev.param.startBlock * dev.param.nChunksPerBlock →
      yaffs_wr_nand dev chunkInNAND data spare = (YAFFS_FAIL, dev) ∧
      (yaffs_wr_nand (withWriteLog dev log) chunkInNAND data spare).1 = YAFFS_FAIL ∧
      (yaffs_wr_nand (withWriteLog dev log) chunkInNAND data spare).2.driverContext =
        (dev.driverContext, log)) ∧
    (¬ chunkInNAND < dev.param.startBlock * dev.param.nChunksPerBlock →
      (yaffs_wr_nand dev chunkInNAND data spare).1 =
        (dev.param.writeChunkToNAND dev.driverContext chunkInNAND data spare).1 ∧
      (yaffs_wr_nand dev chunkInNAND data spare).2 =
        { dev with driverContext :=
            (dev.param.writeChunkToNAND dev.driverContext chunkInNAND data spare).2 } ∧
      (yaffs_wr_nand (withWriteLog dev log) chunkInNAND data spare).1 =
        (dev.param.writeChunkToNAND dev.driverContext chunkInNAND data spare).1 ∧
      (yaffs_wr_nand (withWriteLog dev log) chunkInNAND data spare).2.driverContext =
        ((dev.param.writeChunkToNAND dev.driverContext chunkInNAND data spare).2,
          log ++ [(chunkInNAND, data, spare)])) := by
  have hw := wrap32_of_isInt32 _ hprod
  have hlog : wrap32 ((withWriteLog dev log).param.startBlock *
      (withWriteLog dev log).param.nChunksPerBlock) =
      dev.param.startBlock * dev.param.nChunksPerBlock := hw
  unfold yaffs_wr_nand
  rw [hw, hlog]
  refine ⟨fun h => ?_, fun h => ?_⟩
  · rw [if_pos h, if_pos h]
    exact ⟨rfl, rfl, rfl⟩
  · rw [if_neg h, if_neg h]
    exact ⟨rfl, rfl, rfl, rfl⟩

/-- Witness of C12: on the device whose first block is reserved (32 chunks), a
write to chunk 5 fails and the list of driver calls stays empty; a write to
chunk 40 succeeds and the list holds that one call. -/
theorem wr_nand_range_check_witness :
    isInt32 (reservedDevice.param.startBlock * reservedDevice.param.nChunksPerBlock) ∧
    (5 : Int) < reservedDevice.param.startBlock * reservedDevice.param.nChunksPerBlock ∧
    yaffs_wr_nand reservedDevice 5 none yaffs_spare_init = (YAFFS_FAIL, reservedDevice) ∧
    (yaffs_wr_nand (withWriteLog reservedDevice []) 5 none
      yaffs_spare_init).2.driverContext.2 = [] ∧
    ¬ (40 : Int) < reservedDevice.param.startBlock * reservedDevice.param.nChunksPerBlock ∧
    (yaffs_wr_nand reservedDevice 40 (some [1, 2]) yaffs_spare_init).1 = YAFFS_OK ∧
    (yaffs_wr_nand (withWriteLog reservedDevice []) 40 (some [1, 2])
      yaffs_spare_init).2.driverContext.2 = [(40, some [1, 2], yaffs_spare_init)] :=
  ⟨by decide, by decide,
    ((wr_nand_range_check reservedDevice 5 none yaffs_spare_init [] (by decide)).1
      (by decide)).1,
    congrArg Prod.snd ((wr_nand_range_check reservedDevice 5 none yaffs_spare_init []
      (by decide)).1 (by decide)).2.2,
    by decide,
    ((wr_nand_range_check reservedDevice 40 (some [1, 2]) yaffs_spare_init [] (by decide)).2
      (by decide)).1.trans rfl,
    congrArg Prod.snd ((wr_nand_range_check reservedDevice 40 (some [1, 2]) yaffs_spare_init []
      (by decide)).2 (by decide)).2.2.2⟩

/-- When the `int` product overflows, the guard compares with the wrapped value:
with `startBlock = nChunksPerBlock = 65536` the product wraps to 0 and a write
to chunk 5 reaches the driver. -/
theorem wr_nand_wrapped_guard :
    wrap32 (65536 * 65536) = 0 ∧
    (yaffs_wr_nand
      { ramDevice with
        param := { ramDevice.param with startBlock := 65536, nChunksPerBlock := 65536 } }
      5 none yaffs_spare_init).2.driverContext = [(5, none, yaffs_spare_init)] := by
  decide

/-- C13. Result of a read and atomicity on failure: `yaffs_tags_compat_rd` returns
success exactly when the driver's read returns a non-zero value, whatever the
data-ECC library, the per-half results and the tag bytes are; when the driver's
read returns 0 it returns failure, the caller's extended tags are as passed and
`tagsEccFixed` and `tagsEccUnfixed` are unchanged. -/
theorem compat_rd_result {σ : Type} (L : TagsLayout) (E : EccLib) (dev : yaffs_Device σ)
    (chunkInNAND : Int) (data : Bool) (eTags : Option yaffs_ExtendedTags) :
    ((yaffs_tags_compat_rd L E dev chunkInNAND data eTags).retVal = YAFFS_OK ↔
      (dev.param.readChunkFromNAND dev.driverContext chunkInNAND data).retVal ≠ 0) ∧
    ((yaffs_tags_compat_rd L E dev chunkInNAND data eTags).retVal = YAFFS_FAIL ↔
      (dev.param.readChunkFromNAND dev.driverContext chunkInNAND data).retVal = 0) ∧
    ((dev.param.readChunkFromNAND dev.driverContext chunkInNAND data).retVal = 0 →
      (yaffs_tags_compat_rd L E dev chunkInNAND data eTags).eTags = eTags ∧
      (yaffs_tags_compat_rd L E dev chunkInNAND data eTags).dev.tagsEccFixed =
        dev.tagsEccFixed ∧
      (yaffs_tags_compat_rd L E dev chunkInNAND data eTags).dev.tagsEccUnfixed =
        dev.tagsEccUnfixed) := by
  have hr := rd_chunk_retVal E dev chunkInNAND data yaffs_ECCResult.YAFFS_ECC_RESULT_UNKNOWN 1
  obtain ⟨_, _, _, hf, hu⟩ := rd_chunk_data_frame E dev chunkInNAND data
    yaffs_ECCResult.YAFFS_ECC_RESULT_UNKNOWN 1
  by_cases h : (dev.param.readChunkFromNAND dev.driverContext chunkInNAND data).retVal = 0
  · have h0 : ¬ (yaffs_rd_chunk_nand E dev chunkInNAND data
        yaffs_ECCResult.YAFFS_ECC_RESULT_UNKNOWN 1).retVal ≠ 0 := by
      rw [hr]; exact fun hh => hh h
    have hrd : yaffs_tags_compat_rd L E dev chunkInNAND data eTags =
        { retVal := YAFFS_FAIL
          dev := (yaffs_rd_chunk_nand E dev chunkInNAND data
            yaffs_ECCResult.YAFFS_ECC_RESULT_UNKNOWN 1).dev
          data := (yaffs_rd_chunk_nand E dev chunkInNAND data
            yaffs_ECCResult.YAFFS_ECC_RESULT_UNKNOWN 1).data
          eTags := eTags } := by
      unfold yaffs_tags_compat_rd
      simp only [if_neg h0]
    rw [hrd]
    have hne : YAFFS_FAIL ≠ YAFFS_OK := by decide
    refine ⟨⟨fun hh => absurd hh hne, fun hh => absurd h hh⟩,
      ⟨fun _ => h, fun _ => rfl⟩, fun _ => ⟨rfl, hf, hu⟩⟩
  · have h1 : (yaffs_rd_chunk_nand E dev chunkInNAND data
        yaffs_ECCResult.YAFFS_ECC_RESULT_UNKNOWN 1).retVal ≠ 0 := by
      rw [hr]; exact h
    have hok : (yaffs_tags_compat_rd L E dev chunkInNAND data eTags).retVal = YAFFS_OK := by
      unfold yaffs_tags_compat_rd
      simp only [if_pos h1]
      cases eTags with
      | none => rfl
      | some t =>
        simp only
        split <;> rfl
    rw [hok]
    exact ⟨⟨fun _ => h, fun _ => rfl⟩, ⟨fun hh => absurd hh (by decide), fun hh => absurd hh h⟩,
      fun hh => absurd hh h⟩

/-- Witness of C13: over the driver whose read fails, the read of chunk 10 fails
and hands back the caller's extended tags; over the RAM driver it succeeds. -/
theorem compat_rd_result_witness :
    (failingDevice.param.readChunkFromNAND failingDevice.driverContext 10 true).retVal = 0 ∧
    (yaffs_tags_compat_rd yaffs_guts_layout sampleEcc failingDevice 10 true
      (some sampleTags)).retVal = YAFFS_FAIL ∧
    (yaffs_tags_compat_rd yaffs_guts_layout sampleEcc failingDevice 10 true
      (some sampleTags)).eTags = some sampleTags ∧
    (yaffs_tags_compat_rd yaffs_guts_layout sampleEcc ramDevice 10 true
      (some sampleTags)).retVal = YAFFS_OK :=
  ⟨by decide,
    (compat_rd_result yaffs_guts_layout sampleEcc failingDevice 10 true
      (some sampleTags)).2.1.mpr (by decide),
    ((compat_rd_result yaffs_guts_layout sampleEcc failingDevice 10 true
      (some sampleTags)).2.2 (by decide)).1,
    (compat_rd_result yaffs_guts_layout sampleEcc ramDevice 10 true
      (some sampleTags)).1.mpr (by decide)⟩

/-! ## The data-ECC outcome, the counters and the retirement flag -/

/-- The device after `yaffs_rd_chunk_nand` when a data buffer is passed and
correction is on, in terms of the two per-half results. -/
theorem rd_chunk_with_data {σ : Type} (E : EccLib) (dev : yaffs_Device σ) (c : Int)
    (e0 : yaffs_ECCResult) (cor : Int) (hcor : cor ≠ 0) :
    (yaffs_rd_chunk_nand E dev c true e0 cor).eccResult =
      resolve_ecc_result (half_result1 E dev c) (half_result2 E dev c) ∧
    (yaffs_rd_chunk_nand E dev c true e0 cor).dev =
      if dev.param.useNANDECC = 0 then
        if half_result1 E dev c ≠ 0 ∨ half_result2 E dev c ≠ 0 then
          yaffs_handle_rd_data_error
            (count_ecc_result (count_ecc_result dev (half_result1 E dev c))
              (half_result2 E dev c)) c
        else
          count_ecc_result (count_ecc_result dev (half_result1 E dev c)) (half_result2 E dev c)
      else
        if half_result1 E dev c ≠ 0 ∨ half_result2 E dev c ≠ 0 then
          yaffs_handle_rd_data_error dev c
        else dev := by
  unfold yaffs_rd_chunk_nand half_result1 half_result2
  by_cases hm : dev.param.useNANDECC = 0
  · simp only [hm, if_true, hcor, ne_eq, not_false_eq_true, and_self]
  · simp only [hm, if_false, hcor, ne_eq, not_false_eq_true, and_self, if_true]

/-- Without a data buffer, or with correction off, `yaffs_rd_chunk_nand` changes
neither the device nor the ECC result. -/
theorem rd_chunk_skip {σ : Type} (E : EccLib) (dev : yaffs_Device σ) (c : Int)
    (data : Bool) (e0 : yaffs_ECCResult) (cor : Int) (h : data = false ∨ cor = 0) :
    (yaffs_rd_chunk_nand E dev c data e0 cor).dev = dev ∧
    (yaffs_rd_chunk_nand E dev c data e0 cor).eccResult = e0 := by
  have hc : ¬ (data = true ∧ cor ≠ 0) := by
    rintro ⟨h1, h2⟩
    rcases h with h | h
    · rw [h] at h1; exact absurd h1 (by decide)
    · exact h2 h
  unfold yaffs_rd_chunk_nand
  split
  · simp only [if_neg hc, and_self]
  · simp only [if_neg hc, and_self]

theorem handle_rd_data_error_frame {σ : Type} (dev : yaffs_Device σ) (c : Int) :
    (yaffs_handle_rd_data_error dev c).eccFixed = dev.eccFixed ∧
    (yaffs_handle_rd_data_error dev c).eccUnfixed = dev.eccUnfixed ∧
    (yaffs_handle_rd_data_error dev c).tagsEccFixed = dev.tagsEccFixed ∧
    (yaffs_handle_rd_data_error dev c).tagsEccUnfixed = dev.tagsEccUnfixed :=
  ⟨rfl, rfl, rfl, rfl⟩

theorem resolve_ecc_result_cases (r1 r2 : Int) :
    ((r1 < 0 ∨ r2 < 0) →
      resolve_ecc_result r1 r2 = yaffs_ECCResult.YAFFS_ECC_RESULT_UNFIXED) ∧
    (¬ (r1 < 0 ∨ r2 < 0) → (r1 > 0 ∨ r2 > 0) →
      resolve_ecc_result r1 r2 = yaffs_ECCResult.YAFFS_ECC_RESULT_FIXED) ∧
    (r1 = 0 → r2 = 0 →
      resolve_ecc_result r1 r2 = yaffs_ECCResult.YAFFS_ECC_RESULT_NO_ERROR) := by
  unfold resolve_ecc_result
  refine ⟨fun h => ?_, fun h h2 => ?_, fun h1 h2 => ?_⟩
  · rw [if_pos h]
  · rw [if_neg h, if_pos h2]
  · subst h1; subst h2
    simp

/-- The retirement flags after `yaffs_rd_chunk_nand` with a data buffer and
correction on. -/
theorem rd_chunk_needsRetiring {σ : Type} (E : EccLib) (dev : yaffs_Device σ) (c : Int)
    (e0 : yaffs_ECCResult) (cor : Int) (hcor : cor ≠ 0) :
    (yaffs_rd_chunk_nand E dev c true e0 cor).dev.needsRetiring =
      if half_result1 E dev c ≠ 0 ∨ half_result2 E dev c ≠ 0 then
        fun b =>
          if b = wrap32 (wrap32 (Int.tdiv c dev.param.nChunksPerBlock) + dev.blockOffset)
          then 1 else dev.needsRetiring b
      else dev.needsRetiring := by
  rw [(rd_chunk_with_data E dev c e0 cor hcor).2]
  obtain ⟨a1, _, _, a4, _, _, a7⟩ := count_ecc_result_frame dev (half_result1 E dev c)
  obtain ⟨b1, _, _, b4, _, _, b7⟩ := count_ecc_result_frame
    (count_ecc_result dev (half_result1 E dev c)) (half_result2 E dev c)
  by_cases hm : dev.param.useNANDECC = 0
  · simp only [hm, if_true]
    split
    · simp only [yaffs_handle_rd_data_error, set_needsRetiring, b1, a1, b4, a4, b7, a7]
    · exact b7.trans a7
  · simp only [hm, if_false]
    split
    · rfl
    · rfl

/-- The remainder of a truncating division is smaller than the divisor in
absolute value. -/
theorem natAbs_tmod_lt (a b : Int) (hb : b ≠ 0) : (Int.tmod a b).natAbs < b.natAbs := by
  have hpos : 0 < b.natAbs := Int.natAbs_pos.mpr hb
  cases a <;> cases b <;>
    simp only [Int.tmod, Int.natAbs_ofNat, Int.natAbs_neg, Int.natAbs_negSucc,
      Int.ofNat_eq_coe] at hpos ⊢ <;>
    exact Nat.mod_lt _ hpos

/-- C14. Resolution of the data-ECC outcome.  The two per-half results are the
corrector's under software ECC and the driver's `eccres1`, `eccres2` under
hardware ECC.  With a data buffer and correction on, in both modes,
`yaffs_rd_chunk_nand` reports UNFIXED if either result is negative, else FIXED
if either is positive, else NO_ERROR.  Without a data buffer, or with correction
off, the ECC result keeps the value it had on entry; `yaffs_tags_compat_rd`
enters with UNKNOWN, so a successful read without a data buffer reports
UNKNOWN in the extended tags. -/
theorem ecc_result_resolution {σ : Type} (L : TagsLayout) (E : EccLib) (dev : yaffs_Device σ)
    (chunkInNAND : Int) (e0 : yaffs_ECCResult) (cor : Int) :
    (dev.param.useNANDECC = 0 →
      half_result1 E dev chunkInNAND =
        (E.yaffs_ecc_correct
          ((dev.param.readChunkFromNAND dev.driverContext chunkInNAND true).data.take 256)
          (dev.param.readChunkFromNAND dev.driverContext chunkInNAND true).nspare.spare.ecc1
          (E.yaffs_ecc_cacl ((dev.param.readChunkFromNAND dev.driverContext chunkInNAND
            true).data.take 256))).result ∧
      half_result2 E dev chunkInNAND =
        (E.yaffs_ecc_correct
          (((dev.param.readChunkFromNAND dev.driverContext chunkInNAND true).data.drop
            256).take 256)
          (dev.param.readChunkFromNAND dev.driverContext chunkInNAND true).nspare.spare.ecc2
          (E.yaffs_ecc_cacl (((dev.param.readChunkFromNAND dev.driverContext chunkInNAND
            true).data.drop 256).take 256))).result) ∧
    (dev.param.useNANDECC ≠ 0 →
      half_result1 E dev chunkInNAND =
        (dev.param.readChunkFromNAND dev.driverContext chunkInNAND true).nspare.eccres1 ∧
      half_result2 E dev chunkInNAND =
        (dev.param.readChunkFromNAND dev.driverContext chunkInNAND true).nspare.eccres2) ∧
    (cor ≠ 0 →
      ((half_result1 E dev chunkInNAND < 0 ∨ half_result2 E dev chunkInNAND < 0) →
        (yaffs_rd_chunk_nand E dev chunkInNAND true e0 cor).eccResult =
          yaffs_ECCResult.YAFFS_ECC_RESULT_UNFIXED) ∧
      (¬ (half_result1 E dev chunkInNAND < 0 ∨ half_result2 E dev chunkInNAND < 0) →
        (half_result1 E dev chunkInNAND > 0 ∨ half_result2 E dev chunkInNAND > 0) →
        (yaffs_rd_chunk_nand E dev chunkInNAND true e0 cor).eccResult =
          yaffs_ECCResult.YAFFS_ECC_RESULT_FIXED) ∧
      (half_result1 E dev chunkInNAND = 0 → half_result2 E dev chunkInNAND = 0 →
        (yaffs_rd_chunk_nand E dev chunkInNAND true e0 cor).eccResult =
          yaffs_ECCResult.YAFFS_ECC_RESULT_NO_ERROR)) ∧
    (∀ data : Bool, data = false ∨ cor = 0 →
      (yaffs_rd_chunk_nand E dev chunkInNAND data e0 cor).eccResult = e0) ∧
    (∀ t : yaffs_ExtendedTags,
      (dev.param.readChunkFromNAND dev.driverContext chunkInNAND false).retVal ≠ 0 →
      Option.map yaffs_ExtendedTags.eccResult
          (yaffs_tags_compat_rd L E dev chunkInNAND false (some t)).eTags =
        some yaffs_ECCResult.YAFFS_ECC_RESULT_UNKNOWN) := by
  refine ⟨fun hm => ?_, fun hm => ?_, fun hcor => ?_, fun data h => ?_, fun t hret => ?_⟩
  · unfold half_result1 half_result2
    simp only [hm, if_true, and_self]
  · unfold half_result1 half_result2
    simp only [hm, if_false, and_self]
  · rw [(rd_chunk_with_data E dev chunkInNAND e0 cor hcor).1]
    exact resolve_ecc_result_cases _ _
  · exact (rd_chunk_skip E dev chunkInNAND data e0 cor h).2
  · have hr : (yaffs_rd_chunk_nand E dev chunkInNAND false
        yaffs_ECCResult.YAFFS_ECC_RESULT_UNKNOWN 1).retVal ≠ 0 := by
      rw [rd_chunk_retVal]; exact hret
    have he := (rd_chunk_skip E dev chunkInNAND false
      yaffs_ECCResult.YAFFS_ECC_RESULT_UNKNOWN 1 (Or.inl rfl)).2
    by_cases hused : (yaffs_rd_chunk_nand E dev chunkInNAND false
        yaffs_ECCResult.YAFFS_ECC_RESULT_UNKNOWN 1).spare ≠ yaffs_spare_init
    · rw [compat_rd_used L E dev chunkInNAND false t hr hused]
      simp only [Option.map_some', extended_of_tags, he]
    · unfold yaffs_tags_compat_rd
      simp only [hr, hused, ne_eq, not_false_eq_true, if_true, if_false, not_true_eq_false,
        Option.map_some', he]

/-- Witness of C14: reading the erased chunk 10 of the sample device with a data
buffer, the corrector (which reports -1 when the stored and computed codes
differ) fails on the first half and the read reports UNFIXED; the hardware-ECC
device, whose driver reports 1 and -1, reports UNFIXED as well; without a data
buffer the result stays UNKNOWN. -/
theorem ecc_result_resolution_witness :
    half_result1 sampleEcc ramDevice 10 < 0 ∧
    (yaffs_rd_chunk_nand sampleEcc ramDevice 10 true
      yaffs_ECCResult.YAFFS_ECC_RESULT_UNKNOWN 1).eccResult =
        yaffs_ECCResult.YAFFS_ECC_RESULT_UNFIXED ∧
    half_result2 sampleEcc hwEccDevice 10 < 0 ∧
    (yaffs_rd_chunk_nand sampleEcc hwEccDevice 10 true
      yaffs_ECCResult.YAFFS_ECC_RESULT_UNKNOWN 1).eccResult =
        yaffs_ECCResult.YAFFS_ECC_RESULT_UNFIXED ∧
    (yaffs_rd_chunk_nand sampleEcc ramDevice 10 false
      yaffs_ECCResult.YAFFS_ECC_RESULT_UNKNOWN 1).eccResult =
        yaffs_ECCResult.YAFFS_ECC_RESULT_UNKNOWN :=
  ⟨by decide,
    ((ecc_result_resolution yaffs_guts_layout sampleEcc ramDevice 10
      yaffs_ECCResult.YAFFS_ECC_RESULT_UNKNOWN 1).2.2.1 (by decide)).1 (Or.inl (by decide)),
    by decide,
    ((ecc_result_resolution yaffs_guts_layout sampleEcc hwEccDevice 10
      yaffs_ECCResult.YAFFS_ECC_RESULT_UNKNOWN 1).2.2.1 (by decide)).1 (Or.inr (by decide)),
    (ecc_result_resolution yaffs_guts_layout sampleEcc ramDevice 10
      yaffs_ECCResult.YAFFS_ECC_RESULT_UNKNOWN 1).2.2.2.1 false (Or.inl rfl)⟩

/-- C18. Retirement flagging and its frame.  In `yaffs_rd_chunk_nand` with a data
buffer and correction on, on a device with `nChunksPerBlock` not 0 and with the
quotient `chunkInNAND / nChunksPerBlock` and its sum with `blockOffset`
representable as `int`s (the cases in which the C expressions are defined), with
the two per-half results of the mode in force: when at least one is non-zero,
`needsRetiring` of block `chunkInNAND / nChunksPerBlock + blockOffset` is 1
afterwards; when both are zero no flag changes; in either case the flag of every
other block is as before and a flag that was 1 is still 1; the value returned is
the driver's.  The quotient is the truncated one: `chunkInNAND` is the quotient
times `nChunksPerBlock` plus a remainder smaller than `nChunksPerBlock` in
absolute value. -/
theorem retirement_flagging {σ : Type} (E : EccLib) (dev : yaffs_Device σ)
    (chunkInNAND : Int) (e0 : yaffs_ECCResult) (cor : Int) (hcor : cor ≠ 0)
    (hn : dev.param.nChunksPerBlock ≠ 0)
    (hq : isInt32 (Int.tdiv chunkInNAND dev.param.nChunksPerBlock))
    (hsum : isInt32 (Int.tdiv chunkInNAND dev.param.nChunksPerBlock + dev.blockOffset)) :
    ((half_result1 E dev chunkInNAND ≠ 0 ∨ half_result2 E dev chunkInNAND ≠ 0) →
      (yaffs_rd_chunk_nand E dev chunkInNAND true e0 cor).dev.needsRetiring
        (Int.tdiv chunkInNAND dev.param.nChunksPerBlock + dev.blockOffset) = 1) ∧
    (half_result1 E dev chunkInNAND = 0 → half_result2 E dev chunkInNAND = 0 →
      (yaffs_rd_chunk_nand E dev chunkInNAND true e0 cor).dev.needsRetiring =
        dev.needsRetiring) ∧
    (∀ b : Int, b ≠ Int.tdiv chunkInNAND dev.param.nChunksPerBlock + dev.blockOffset →
      (yaffs_rd_chunk_nand E dev chunkInNAND true e0 cor).dev.needsRetiring b =
        dev.needsRetiring b) ∧
    (∀ b : Int, dev.needsRetiring b = 1 →
      (yaffs_rd_chunk_nand E dev chunkInNAND true e0 cor).dev.needsRetiring b = 1) ∧
    (yaffs_rd_chunk_nand E dev chunkInNAND true e0 cor).retVal =
      (dev.param.readChunkFromNAND dev.driverContext chunkInNAND true).retVal ∧
    (chunkInNAND = Int.tdiv chunkInNAND dev.param.nChunksPerBlock * dev.param.nChunksPerBlock +
        Int.tmod chunkInNAND dev.param.nChunksPerBlock ∧
      (Int.tmod chunkInNAND dev.param.nChunksPerBlock).natAbs <
        dev.param.nChunksPerBlock.natAbs) := by
  have hn0 := rd_chunk_needsRetiring E dev chunkInNAND e0 cor hcor
  rw [wrap32_of_isInt32 _ hq, wrap32_of_isInt32 _ hsum] at hn0
  refine ⟨fun h => ?_, fun h1 h2 => ?_, fun b hb => ?_, fun b hb => ?_,
    rd_chunk_retVal E dev chunkInNAND true e0 cor,
    (Int.tdiv_add_tmod' chunkInNAND dev.param.nChunksPerBlock).symm,
    natAbs_tmod_lt chunkInNAND dev.param.nChunksPerBlock hn⟩
  · rw [hn0, if_pos h]
    simp only [if_true]
  · have h : ¬ (half_result1 E dev chunkInNAND ≠ 0 ∨ half_result2 E dev chunkInNAND ≠ 0) := by
      rintro (h | h)
      · exact h h1
      · exact h h2
    rw [hn0, if_neg h]
  · rw [hn0]
    split
    · simp only [if_neg hb]
    · rfl
  · rw [hn0]
    split
    · simp only
      split
      · rfl
      · exact hb
    · exact hb

/-- Witness of C18: reading the erased chunk 40 of the sample device (32 chunks
per block, block offset 0) with a data buffer, the first half is unrecoverable
and block 1 is flagged; block 0 is not. -/
theorem retirement_flagging_witness :
    (1 : Int) ≠ 0 ∧ ramDevice.param.nChunksPerBlock ≠ 0 ∧
    isInt32 (Int.tdiv 40 ramDevice.param.nChunksPerBlock) ∧
    isInt32 (Int.tdiv 40 ramDevice.param.nChunksPerBlock + ramDevice.blockOffset) ∧
    half_result1 sampleEcc ramDevice 40 ≠ 0 ∧
    (yaffs_rd_chunk_nand sampleEcc ramDevice 40 true
      yaffs_ECCResult.YAFFS_ECC_RESULT_UNKNOWN 1).dev.needsRetiring 1 = 1 ∧
    (yaffs_rd_chunk_nand sampleEcc ramDevice 40 true
      yaffs_ECCResult.YAFFS_ECC_RESULT_UNKNOWN 1).dev.needsRetiring 0 = 0 :=
  ⟨by decide, by decide, by decide, by decide, by decide,
    (retirement_flagging sampleEcc ramDevice 40 yaffs_ECCResult.YAFFS_ECC_RESULT_UNKNOWN 1
      (by decide) (by decide) (by decide) (by decide)).1 (Or.inl (by decide)),
    ((retirement_flagging sampleEcc ramDevice 40 yaffs_ECCResult.YAFFS_ECC_RESULT_UNKNOWN 1
      (by decide) (by decide) (by decide) (by decide)).2.2.1 0 (by decide)).trans rfl⟩

/-! ## Bit counting and undetected double errors -/

set_option maxRecDepth 100000 in
theorem count_bits_table_length : yaffs_count_bits_table.length = 256 := by decide

/-- C16. Bit counting: the table has 256 entries, and for every byte value `x`
(0..255) `yaffs_count_bits x`, the entry of index `x`, is the number of bit
positions 0..7 at which `x` has a set bit; a byte has no set bit at any other
position, so this is the number of set bits of `x`, and it is at most 8. -/
theorem count_bits_correct (x : Nat) (hx : x < 256) :
    yaffs_count_bits_table.length = 256 ∧
    yaffs_count_bits x = yaffs_count_bits_table.getD x 0 ∧
    yaffs_count_bits x = ((List.range 8).filter fun k => x.testBit k).length ∧
    (∀ k, x.testBit k = true → k < 8) ∧
    yaffs_count_bits x ≤ 8 := by
  have hp : yaffs_count_bits x = popcount8 x := count_bits_eq_popcount x
  refine ⟨count_bits_table_length, ?_, hp, fun k hk => ?_, ?_⟩
  · unfold yaffs_count_bits
    rw [Nat.mod_eq_of_lt hx]
  · by_contra hge
    have h8 : 8 ≤ k := by omega
    have hlt : x < 2 ^ k :=
      lt_of_lt_of_le hx (by
        have : 2 ^ 8 ≤ 2 ^ k := Nat.pow_le_pow_right (by decide) h8
        simpa using this)
    rw [Nat.testBit_lt_two_pow hlt] at hk
    exact absurd hk (by decide)
  · rw [hp]
    unfold popcount8
    have := List.length_filter_le (fun k => x.testBit k) (List.range 8)
    simpa using this

/-- Witness of C16: the byte 0x59 (the bad-block marker) has 4 set bits. -/
theorem count_bits_correct_witness :
    (0x59 : Nat) < 256 ∧ yaffs_count_bits 0x59 = 4 ∧ yaffs_count_bits 0x59 ≤ 8 :=
  ⟨by decide,
    (count_bits_correct 0x59 (by decide)).2.2.1.trans (by decide),
    (count_bits_correct 0x59 (by decide)).2.2.2.2⟩

set_option maxRecDepth 100000 in
/-- C17. Multi-bit aliasing exists.  On the declared layout there is a record
with a correctly computed code and two distinct bit positions outside the code
field such that, with both bits flipped, the syndrome (stored code XOR recomputed
code) lies in 1..64, `yaffs_check_tags_ecc` returns 1, and the record it leaves
differs from the original outside the code field: its chunkId is another.  (The
record is objectId 42, chunkId 7, byteCount 513, serialNumber 3 with its code;
the bits are 0 and 1; the syndrome is 3 and the check flips bit 2, leaving
chunkId 0.) -/
theorem double_flip_aliases :
    ∃ tags p q : Nat,
      tags < 2 ^ 64 ∧ yaffs_calc_tags_ecc yaffs_guts_layout tags = tags ∧
      p < 64 ∧ q < 64 ∧ p ≠ q ∧
      ¬ yaffs_guts_layout.ecc.covers p ∧ ¬ yaffs_guts_layout.ecc.covers q ∧
      1 ≤ (yaffs_guts_layout.ecc.get (flipBit (flipBit tags p) q) ^^^
        yaffs_guts_layout.ecc.get
          (yaffs_calc_tags_ecc yaffs_guts_layout (flipBit (flipBit tags p) q))) ∧
      (yaffs_guts_layout.ecc.get (flipBit (flipBit tags p) q) ^^^
        yaffs_guts_layout.ecc.get
          (yaffs_calc_tags_ecc yaffs_guts_layout (flipBit (flipBit tags p) q))) ≤ 64 ∧
      (yaffs_check_tags_ecc yaffs_guts_layout (flipBit (flipBit tags p) q)).2 = 1 ∧
      (yaffs_check_tags_ecc yaffs_guts_layout (flipBit (flipBit tags p) q)).1 ≠ tags ∧
      yaffs_guts_layout.chunkId.get
          (yaffs_check_tags_ecc yaffs_guts_layout (flipBit (flipBit tags p) q)).1 ≠
        yaffs_guts_layout.chunkId.get tags :=
  ⟨yaffs_calc_tags_ecc yaffs_guts_layout 182543450119, 0, 1, by decide⟩

/-! ## Written and erased tag bytes -/

/-- Bit 7 of the code field is clear in every record `yaffs_calc_tags_ecc`
leaves, when the field has that bit. -/
theorem calc_code_bit7 (L : TagsLayout) (w : Nat) (h8 : 8 ≤ L.ecc.width) :
    (yaffs_calc_tags_ecc L w).testBit (L.ecc.off + 7) = false := by
  rw [yaffs_calc_tags_ecc_eq, BitField.testBit_set]
  have hc : L.ecc.off ≤ L.ecc.off + 7 ∧ L.ecc.off + 7 < L.ecc.off + L.ecc.width := by omega
  rw [if_pos hc, Nat.add_sub_cancel_left]
  exact Nat.testBit_lt_two_pow (xorPositions_lt _ 64 (le_refl 64))

/-- Tag bytes stored from a record with a clear bit below 64 are not all 0xFF. -/
theorem store_not_all_ff (s : yaffs_Spare) (w k : Nat) (hk : k < 64)
    (hb : w.testBit k = false) :
    ¬ ((store_tag_bytes s w).tb0 = 0xFF ∧ (store_tag_bytes s w).tb1 = 0xFF ∧
      (store_tag_bytes s w).tb2 = 0xFF ∧ (store_tag_bytes s w).tb3 = 0xFF ∧
      (store_tag_bytes s w).tb4 = 0xFF ∧ (store_tag_bytes s w).tb5 = 0xFF ∧
      (store_tag_bytes s w).tb6 = 0xFF ∧ (store_tag_bytes s w).tb7 = 0xFF) := by
  rintro ⟨h0, h1, h2, h3, h4, h5, h6, h7⟩
  have key : ∀ i, i < 8 → asByte w i = 255 := by
    intro i hi
    interval_cases i
    · exact h0
    · exact h1
    · exact h2
    · exact h3
    · exact h4
    · exact h5
    · exact h6
    · exact h7
  have hbit := testBit_asByte w (k / 8) (k % 8)
  have hk8 : k / 8 < 8 := by omega
  have hm : k % 8 < 8 := Nat.mod_lt _ (by decide)
  have hsum : 8 * (k / 8) + k % 8 = k := Nat.div_add_mod k 8
  rw [key _ hk8, testBit_255, hsum, hb] at hbit
  simp [hm] at hbit

/-- C19. A written chunk never looks erased.  On a layout whose code field has at
least 8 bits: the code `yaffs_calc_tags_ecc` stores is below 128, so bit 7 of
the code field is 0 and the 8 tag bytes `yaffs_load_tags_to_spare` produces are
never all 0xFF, whatever the record; the spare `yaffs_tags_compat_wr` builds for
a chunk that is not deleted differs from the all-0xFF spare; and a
`yaffs_tags_compat_rd` whose driver read succeeds and delivers that spare
reports chunkUsed = 1. -/
theorem written_chunk_not_erased {σ : Type} (L : TagsLayout) (E : EccLib)
    (dev : yaffs_Device σ) (data : Option (List Nat)) (eTags : yaffs_ExtendedTags)
    (hL : L.WF) (h8 : 8 ≤ L.ecc.width) (hdel : eTags.chunkDeleted = 0) :
    (∀ tags : yaffs_Tags, L.ecc.get (yaffs_calc_tags_ecc L tags) < 128) ∧
    (∀ (sparePtr : yaffs_Spare) (tags : yaffs_Tags),
      ¬ ((yaffs_load_tags_to_spare L sparePtr tags).1.tb0 = 0xFF ∧
        (yaffs_load_tags_to_spare L sparePtr tags).1.tb1 = 0xFF ∧
        (yaffs_load_tags_to_spare L sparePtr tags).1.tb2 = 0xFF ∧
        (yaffs_load_tags_to_spare L sparePtr tags).1.tb3 = 0xFF ∧
        (yaffs_load_tags_to_spare L sparePtr tags).1.tb4 = 0xFF ∧
        (yaffs_load_tags_to_spare L sparePtr tags).1.tb5 = 0xFF ∧
        (yaffs_load_tags_to_spare L sparePtr tags).1.tb6 = 0xFF ∧
        (yaffs_load_tags_to_spare L sparePtr tags).1.tb7 = 0xFF)) ∧
    compat_wr_spare L E dev data eTags ≠ yaffs_spare_init ∧
    (∀ (E0 : EccLib) (dev0 : yaffs_Device σ) (chunkInNAND : Int) (wantData : Bool)
        (t0 : yaffs_ExtendedTags),
      (dev0.param.readChunkFromNAND dev0.driverContext chunkInNAND wantData).retVal ≠ 0 →
      (dev0.param.readChunkFromNAND dev0.driverContext chunkInNAND wantData).nspare.spare =
        compat_wr_spare L E dev data eTags →
      Option.map yaffs_ExtendedTags.chunkUsed
          (yaffs_tags_compat_rd L E0 dev0 chunkInNAND wantData (some t0)).eTags = some 1) := by
  have hfit : L.ecc.fits := hL.1.2.2.2.2.1
  have htags : tags_from_spare_bytes (compat_wr_spare L E dev data eTags) 0 ≠ 2 ^ 64 - 1 := by
    rw [compat_wr_spare_tags L E dev data eTags hL hdel]
    exact calc_ne_all_ones L _ hfit h8
  refine ⟨fun tags => ?_, fun sparePtr tags => ?_, not_erased_of_tags _ htags,
    fun E0 dev0 c wantData t0 hret hsp => ?_⟩
  · rw [get_ecc_calc L tags (by omega)]
    have := xorPositions_lt (L.ecc.set tags 0) 64 (le_refl 64)
    simpa using this
  · have hk : L.ecc.off + 7 < 64 := by
      unfold BitField.fits at hfit
      omega
    exact store_not_all_ff sparePtr (yaffs_calc_tags_ecc L tags) (L.ecc.off + 7) hk
      (calc_code_bit7 L tags h8)
  · have hr : (yaffs_rd_chunk_nand E0 dev0 c wantData
        yaffs_ECCResult.YAFFS_ECC_RESULT_UNKNOWN 1).retVal ≠ 0 := by
      rw [rd_chunk_retVal]; exact hret
    have hused : (yaffs_rd_chunk_nand E0 dev0 c wantData
        yaffs_ECCResult.YAFFS_ECC_RESULT_UNKNOWN 1).spare ≠ yaffs_spare_init := by
      apply not_erased_of_tags
      rw [(rd_chunk_spare E0 dev0 c wantData yaffs_ECCResult.YAFFS_ECC_RESULT_UNKNOWN 1 0).1,
        hsp]
      exact htags
    rw [compat_rd_used L E0 dev0 c wantData t0 hr hused]
    simp only [Option.map_some', extended_of_tags]

/-- Witness of C19: on the declared layout, the spare built for the sample tags
(not deleted) differs from the erased spare. -/
theorem written_chunk_not_erased_witness :
    yaffs_guts_layout.WF ∧ 8 ≤ yaffs_guts_layout.ecc.width ∧ sampleTags.chunkDeleted = 0 ∧
    compat_wr_spare yaffs_guts_layout sampleEcc ramDevice none sampleTags ≠ yaffs_spare_init :=
  ⟨by decide, by decide, by decide,
    (written_chunk_not_erased yaffs_guts_layout sampleEcc ramDevice none sampleTags
      (by decide) (by decide) (by decide)).2.2.1⟩

theorem ramWrite_ramRead_stores (ctx : RamNand) (chunk : Int) (data : Option (List Nat))
    (spare : yaffs_Spare) (wantData : Bool) :
    (ramRead (ramWrite ctx chunk data spare).2 chunk wantData).retVal = YAFFS_OK ∧
    (ramRead (ramWrite ctx chunk data spare).2 chunk wantData).nspare = ⟨spare, 0, 0⟩ ∧
    ∀ d, wantData = true → data = some d →
      (ramRead (ramWrite ctx chunk data spare).2 chunk wantData).data = d := by
  simp only [ramWrite, ramRead, List.find?, decide_True]
  refine ⟨trivial, trivial, fun d _ hd => ?_⟩
  subst hd
  rfl

theorem ramWrite_keeps (ctx : RamNand) (chunk other : Int) (data : Option (List Nat))
    (spare : yaffs_Spare) (wantData : Bool) (h : other ≠ chunk) :
    ramRead (ramWrite ctx chunk data spare).2 other wantData = ramRead ctx other wantData := by
  have hc : decide (chunk = other) = false := by
    simp only [decide_eq_false_iff_not]
    exact fun hh => h hh.symm
  simp only [ramWrite, ramRead, List.find?, hc]

/-- The RAM driver under the reserved-block device stores what it is given. -/
theorem reservedDevice_stores : StoresAndReturns reservedDevice.param := by
  intro ctx chunk data spare
  exact ⟨rfl, fun wantData => ramWrite_ramRead_stores ctx chunk data spare wantData⟩

theorem reservedDevice_keeps : KeepsOtherChunks reservedDevice.param := by
  intro ctx chunk other data spare wantData h
  exact ramWrite_keeps ctx chunk other data spare wantData h

theorem ramDevice_keeps : KeepsOtherChunks ramDevice.param := by
  intro ctx chunk other data spare wantData h
  exact ramWrite_keeps ctx chunk other data spare wantData h

/-- The device after `yaffs_tags_compat_mark_bad` on a block whose two chunk
numbers are computed without overflow and pass the range check: the two driver
writes, one after the other. -/
theorem mark_bad_dev {σ : Type} (dev : yaffs_Device σ) (B : Int)
    (hstart : isInt32 (dev.param.startBlock * dev.param.nChunksPerBlock))
    (hc0 : isInt32 (B * dev.param.nChunksPerBlock))
    (hc1 : isInt32 (B * dev.param.nChunksPerBlock + 1))
    (hB : ¬ B * dev.param.nChunksPerBlock < dev.param.startBlock * dev.param.nChunksPerBlock) :
    (yaffs_tags_compat_mark_bad dev B).2 =
      { dev with driverContext :=
          (dev.param.writeChunkToNAND
            (dev.param.writeChunkToNAND dev.driverContext (B * dev.param.nChunksPerBlock) none
              { yaffs_spare_init with blockStatus := 0x59 }).2
            (B * dev.param.nChunksPerBlock + 1) none
            { yaffs_spare_init with blockStatus := 0x59 }).2 } := by
  have hB1 : ¬ B * dev.param.nChunksPerBlock + 1 <
      dev.param.startBlock * dev.param.nChunksPerBlock := by omega
  unfold yaffs_tags_compat_mark_bad yaffs_wr_nand
  simp only [wrap32_of_isInt32 _ hstart, wrap32_of_isInt32 _ hc0, wrap32_of_isInt32 _ hc1,
    if_neg hB, if_neg hB1]

/-- C11 (as amended). Bad-block marking is observed when the block is not below the
start block: over a driver that stores each spare it is given, returns it on a
read of that chunk and leaves the other chunks as they are, for a block `B` with
`B * nChunksPerBlock >= startBlock * nChunksPerBlock`, where
`startBlock * nChunksPerBlock`, `B * nChunksPerBlock` and
`B * nChunksPerBlock + 1` are representable as `int`s (no multiplication or
addition overflows), `yaffs_tags_compat_mark_bad` returns success and a
following `yaffs_tags_compat_query_block` of `B` returns success and reports
DEAD. -/
theorem mark_bad_then_query {σ : Type} (E : EccLib) (dev : yaffs_Device σ) (B : Int)
    (hs : StoresAndReturns dev.param) (hk : KeepsOtherChunks dev.param)
    (hstart : isInt32 (dev.param.startBlock * dev.param.nChunksPerBlock))
    (hc0 : isInt32 (B * dev.param.nChunksPerBlock))
    (hc1 : isInt32 (B * dev.param.nChunksPerBlock + 1))
    (hB : ¬ B * dev.param.nChunksPerBlock < dev.param.startBlock * dev.param.nChunksPerBlock) :
    (yaffs_tags_compat_mark_bad dev B).1 = YAFFS_OK ∧
    (yaffs_tags_compat_query_block E (yaffs_tags_compat_mark_bad dev B).2 B).retVal =
      YAFFS_OK ∧
    (yaffs_tags_compat_query_block E (yaffs_tags_compat_mark_bad dev B).2 B).state =
      yaffs_BlockState.YAFFS_BLOCK_STATE_DEAD := by
  refine ⟨rfl, rfl, ?_⟩
  rw [mark_bad_dev dev B hstart hc0 hc1 hB]
  have h0 := ((hs dev.driverContext (B * dev.param.nChunksPerBlock) none
    { yaffs_spare_init with blockStatus := 0x59 }).2 false).2.1
  have h1 := ((hs (dev.param.writeChunkToNAND dev.driverContext
      (B * dev.param.nChunksPerBlock) none { yaffs_spare_init with blockStatus := 0x59 }).2
    (B * dev.param.nChunksPerBlock + 1) none
    { yaffs_spare_init with blockStatus := 0x59 }).2 false).2.1
  have hkeep1 := hk (dev.param.writeChunkToNAND dev.driverContext
      (B * dev.param.nChunksPerBlock) none { yaffs_spare_init with blockStatus := 0x59 }).2
    (B * dev.param.nChunksPerBlock + 1) (B * dev.param.nChunksPerBlock) none
    { yaffs_spare_init with blockStatus := 0x59 } false (by omega)
  simp only at h0 h1
  unfold yaffs_tags_compat_query_block
  simp only [wrap32_of_isInt32 _ hc0, wrap32_of_isInt32 _ hc1, (rd_chunk_no_data E _ _ _ _).1,
    (rd_chunk_no_data E _ _ _ _).2.1, hkeep1, h0, h1]
  decide

/-- Witness of the amended C11: block 1 of the device whose block 0 is reserved. -/
theorem mark_bad_then_query_witness :
    StoresAndReturns reservedDevice.param ∧ KeepsOtherChunks reservedDevice.param ∧
    isInt32 (reservedDevice.param.startBlock * reservedDevice.param.nChunksPerBlock) ∧
    isInt32 ((1 : Int) * reservedDevice.param.nChunksPerBlock) ∧
    isInt32 ((1 : Int) * reservedDevice.param.nChunksPerBlock + 1) ∧
    ¬ (1 : Int) * reservedDevice.param.nChunksPerBlock <
      reservedDevice.param.startBlock * reservedDevice.param.nChunksPerBlock ∧
    (yaffs_tags_compat_query_block sampleEcc (yaffs_tags_compat_mark_bad reservedDevice 1).2
      1).state = yaffs_BlockState.YAFFS_BLOCK_STATE_DEAD :=
  ⟨reservedDevice_stores, reservedDevice_keeps, by decide, by decide, by decide, by decide,
    (mark_bad_then_query sampleEcc reservedDevice 1 reservedDevice_stores reservedDevice_keeps
      (by decide) (by decide) (by decide) (by decide)).2.2⟩

/-- Counterexample to C11 as stated: the device with `startBlock = 1` and 32
chunks per block over the RAM driver, which stores every spare it is given, and
block 0.  `yaffs_wr_nand` rejects chunks 0 and 1 (both below 32), so the driver
is given nothing to store; `yaffs_tags_compat_mark_bad` still returns success,
and the following `yaffs_tags_compat_query_block` of block 0 reports EMPTY, not
DEAD. -/
theorem mark_bad_below_start_block_not_dead :
    StoresAndReturns reservedDevice.param ∧ KeepsOtherChunks reservedDevice.param ∧
    (yaffs_tags_compat_mark_bad reservedDevice 0).1 = YAFFS_OK ∧
    (yaffs_tags_compat_mark_bad reservedDevice 0).2.driverContext = [] ∧
    (yaffs_tags_compat_query_block sampleEcc (yaffs_tags_compat_mark_bad reservedDevice 0).2
      0).state = yaffs_BlockState.YAFFS_BLOCK_STATE_EMPTY ∧
    (yaffs_tags_compat_query_block sampleEcc (yaffs_tags_compat_mark_bad reservedDevice 0).2
      0).state ≠ yaffs_BlockState.YAFFS_BLOCK_STATE_DEAD :=
  ⟨reservedDevice_stores, reservedDevice_keeps, by decide, by decide, by decide, by decide⟩

end Yaffs
